import Mathlib

/-!
Verification of the real-time meeting audio pipeline
(`meeting-assistant`: transcription dispatch, WAV encoding, speaker
attribution, note generation).

Numeric samples (`Float32Array` values) are embedded as rationals `ℚ`,
machine integers as `ℕ`/`ℤ` with explicit `% 2 ^ w` wrapping at the byte
level, and byte buffers as `List ℕ`.  JavaScript string primitives used by
the source (`trim`, `startsWith`, `split(/\s+/)`, `replace`) are given
explicit character-level models.
-/

/-! ## WAV encoding (`transcription.ts`, `audioToWav`) -/

namespace Wav

/-- `Math.max(-1, Math.min(1, audio[i]))` in `audioToWav`: clamp a sample
to `[-1, 1]` before quantization. -/
def clampSample (x : ℚ) : ℚ := max (-1) (min 1 x)

/-- Truncation toward zero, which is what JavaScript's `DataView.setInt16`
applies to a non-integral argument (ToIntegerOrInfinity). -/
def truncToward0 (q : ℚ) : ℤ := if 0 ≤ q then ⌊q⌋ else ⌈q⌉

/-- The 16-bit integer `audioToWav` stores for one clamped sample:
`sample < 0 ? sample * 0x8000 : sample * 0x7FFF`. -/
def sampleToInt16 (x : ℚ) : ℤ :=
  let sample := clampSample x
  if sample < 0 then truncToward0 (sample * 32768) else truncToward0 (sample * 32767)

/-- Two's-complement 16-bit bit pattern of an integer, as stored by
`DataView.setInt16`. -/
def int16Bits (v : ℤ) : ℕ := (v % 65536).toNat

/-- Little-endian byte pair written by `DataView.setUint16`/`setInt16`
(the value wraps modulo `2 ^ 16` byte by byte). -/
def u16le (n : ℕ) : List ℕ := [n % 256, n / 256 % 256]

/-- Little-endian byte quadruple written by `DataView.setUint32`
(the value wraps modulo `2 ^ 32` byte by byte). -/
def u32le (n : ℕ) : List ℕ := [n % 256, n / 256 % 256, n / 65536 % 256, n / 16777216 % 256]

/-- The fixed sample rate of the transcription service (`SAMPLE_RATE`). -/
def SAMPLE_RATE : ℕ := 16000

/-- `audioToWav`: the exact bytes of the produced WAV blob — the 44-byte
RIFF/fmt/data header followed by one little-endian 16-bit PCM word per
sample. -/
def audioToWav (audio : List ℚ) : List ℕ :=
  [82, 73, 70, 70]
  ++ u32le (36 + audio.length * 2)
  ++ [87, 65, 86, 69]
  ++ [102, 109, 116, 32]
  ++ u32le 16
  ++ u16le 1
  ++ u16le 1
  ++ u32le SAMPLE_RATE
  ++ u32le (SAMPLE_RATE * 2)
  ++ u16le 2
  ++ u16le 16
  ++ [100, 97, 116, 97]
  ++ u32le (audio.length * 2)
  ++ audio.flatMap (fun x => u16le (int16Bits (sampleToInt16 x)))

/-- Modelled from the spec: the repository contains no WAV decoder, and §8's
round-trip property ("decoding it back must reproduce the original samples
within 16-bit quantization error") defines the inverse reading of a
little-endian byte pair as a signed 16-bit integer. -/
def int16OfBits (u : ℕ) : ℤ := if u < 32768 then (u : ℤ) else (u : ℤ) - 65536

/-- Modelled from the spec: undo the `audioToWav` scaling of one stored
16-bit integer back to a float sample (negative values were scaled by
`0x8000`, non-negative ones by `0x7FFF`). -/
def sampleOfInt16 (v : ℤ) : ℚ := if v < 0 then (v : ℚ) / 32768 else (v : ℚ) / 32767

/-- Modelled from the spec: read a 16-bit little-endian PCM byte stream back
into float samples. -/
def decodePcm16 : List ℕ → List ℚ
  | b0 :: b1 :: rest => sampleOfInt16 (int16OfBits (b0 + 256 * b1)) :: decodePcm16 rest
  | _ => []

/-- Modelled from the spec: decode a WAV blob produced by `audioToWav` by
skipping its 44 header bytes and reading the PCM payload. -/
def decodeWav (bytes : List ℕ) : List ℚ := decodePcm16 (bytes.drop 44)

theorem clampSample_le_one (x : ℚ) : clampSample x ≤ 1 :=
  max_le (by norm_num) (min_le_left 1 x)

theorem neg_one_le_clampSample (x : ℚ) : -1 ≤ clampSample x := le_max_left _ _

/-- On a negative clamped sample the stored integer is the ceiling
(truncation toward zero of a negative number); otherwise the floor. -/
theorem sampleToInt16_eq (x : ℚ) :
    sampleToInt16 x =
      if clampSample x < 0 then ⌈clampSample x * 32768⌉ else ⌊clampSample x * 32767⌋ := by
  unfold sampleToInt16 truncToward0
  rcases lt_or_le (clampSample x) 0 with h | h
  · have hneg : clampSample x * 32768 < 0 := by nlinarith
    simp [h, not_le.mpr hneg]
  · have hpos : 0 ≤ clampSample x * 32767 := by nlinarith
    simp [not_lt.mpr h, hpos]

theorem sampleToInt16_lb (x : ℚ) : -32768 ≤ sampleToInt16 x := by
  rw [sampleToInt16_eq]
  have h1 : -1 ≤ clampSample x := neg_one_le_clampSample x
  split
  · have : ((-32768 : ℤ) : ℚ) ≤ clampSample x * 32768 := by push_cast; nlinarith
    calc (-32768 : ℤ) = ⌈((-32768 : ℤ) : ℚ)⌉ := by rw [Int.ceil_intCast]
      _ ≤ ⌈clampSample x * 32768⌉ := Int.ceil_le_ceil this
  · have h : ¬ clampSample x < 0 := by assumption
    have h0 : (0:ℚ) ≤ clampSample x * 32767 := by nlinarith [not_lt.mp h]
    have := Int.floor_nonneg.mpr h0
    omega

theorem sampleToInt16_ub (x : ℚ) : sampleToInt16 x ≤ 32767 := by
  rw [sampleToInt16_eq]
  have h1 : clampSample x ≤ 1 := clampSample_le_one x
  split
  · have hneg : clampSample x < 0 := by assumption
    have : ⌈clampSample x * 32768⌉ ≤ (0 : ℤ) := Int.ceil_le.mpr (by push_cast; nlinarith)
    omega
  · have : clampSample x * 32767 ≤ ((32767 : ℤ) : ℚ) := by push_cast; nlinarith
    have h2 := Int.floor_le_floor (α := ℚ) this
    rwa [Int.floor_intCast] at h2

theorem int16Bits_lt (v : ℤ) : int16Bits v < 65536 := by
  unfold int16Bits
  omega

/-- Reading back the stored two's-complement byte pattern recovers the
integer, provided it fits in a signed 16-bit range. -/
theorem int16OfBits_int16Bits (v : ℤ) (h1 : -32768 ≤ v) (h2 : v ≤ 32767) :
    int16OfBits (int16Bits v) = v := by
  unfold int16Bits int16OfBits
  split <;> omega

/-- Quantization error of one sample: decoding the stored 16-bit integer is
within `1 / 32767` of the clamped sample. -/
theorem sampleOfInt16_sampleToInt16 (x : ℚ) :
    |sampleOfInt16 (sampleToInt16 x) - clampSample x| < 1 / 32767 := by
  rw [sampleToInt16_eq]
  rcases lt_or_le (clampSample x) 0 with hc | hc
  · rw [if_pos hc]
    set c := clampSample x with hcdef
    set q : ℤ := ⌈c * 32768⌉ with hq
    have hqle : (c * 32768 : ℚ) ≤ (q : ℚ) := Int.le_ceil _
    have hqlt : (q : ℚ) < c * 32768 + 1 := by exact_mod_cast Int.ceil_lt_add_one (c * 32768)
    have hq0 : q ≤ 0 := Int.ceil_le.mpr (by push_cast; nlinarith)
    have hdec : sampleOfInt16 q = (q : ℚ) / 32768 := by
      unfold sampleOfInt16
      split
      · rfl
      · have hz : q = 0 := le_antisymm hq0 (not_lt.mp (by assumption))
        simp [hz]
    rw [hdec]
    have h1 : 0 ≤ (q : ℚ) / 32768 - c := by
      have : c ≤ (q : ℚ) / 32768 := by
        rw [le_div_iff (by norm_num : (0:ℚ) < 32768)]
        linarith
      linarith
    have h2 : (q : ℚ) / 32768 - c < 1 / 32768 := by
      rw [div_sub' _ _ _ (by norm_num : (32768:ℚ) ≠ 0), div_lt_div_iff (by norm_num) (by norm_num : (0:ℚ) < 32768)]
      ring_nf
      nlinarith
    rw [abs_lt]
    constructor <;> nlinarith
  · rw [if_neg (not_lt.mpr hc)]
    set c := clampSample x with hcdef
    set q : ℤ := ⌊c * 32767⌋ with hq
    have hqle : (q : ℚ) ≤ c * 32767 := Int.floor_le _
    have hqlt : c * 32767 < (q : ℚ) + 1 := by exact_mod_cast Int.lt_floor_add_one (c * 32767)
    have hq0 : 0 ≤ q := Int.floor_nonneg.mpr (by nlinarith)
    have hdec : sampleOfInt16 q = (q : ℚ) / 32767 := by
      unfold sampleOfInt16
      rw [if_neg (by omega : ¬ q < 0)]
    rw [hdec]
    have h1 : (q : ℚ) / 32767 - c ≤ 0 := by
      have : (q : ℚ) / 32767 ≤ c := by
        rw [div_le_iff (by norm_num : (0:ℚ) < 32767)]
        linarith
      linarith
    have h2 : c - (q : ℚ) / 32767 < 1 / 32767 := by
      rw [sub_div' _ _ _ (by norm_num : (32767:ℚ) ≠ 0)]
      rw [div_lt_div_iff (by norm_num : (0:ℚ) < 32767) (by norm_num : (0:ℚ) < 32767)]
      nlinarith
    rw [abs_lt]
    constructor <;> nlinarith

/-- The PCM payload of `audioToWav` is two bytes per sample. -/
theorem payload_length (audio : List ℚ) :
    (audio.flatMap fun x => u16le (int16Bits (sampleToInt16 x))).length = 2 * audio.length := by
  induction audio with
  | nil => rfl
  | cons a t ih =>
      rw [List.flatMap_cons, List.length_append, ih]
      simp only [u16le, List.length_cons, List.length_nil]
      omega

theorem decodePcm16_cons (b0 b1 : ℕ) (rest : List ℕ) :
    decodePcm16 (b0 :: b1 :: rest) =
      sampleOfInt16 (int16OfBits (b0 + 256 * b1)) :: decodePcm16 rest := rfl

/-- Decoding the PCM payload of `audioToWav` decodes each stored sample. -/
theorem decodePcm16_payload (audio : List ℚ) :
    decodePcm16 (audio.flatMap fun x => u16le (int16Bits (sampleToInt16 x))) =
      audio.map fun x => sampleOfInt16 (int16OfBits (int16Bits (sampleToInt16 x))) := by
  induction audio with
  | nil => rfl
  | cons a t ih =>
      have h := int16Bits_lt (sampleToInt16 a)
      have harg : int16Bits (sampleToInt16 a) % 256 +
          256 * (int16Bits (sampleToInt16 a) / 256 % 256) = int16Bits (sampleToInt16 a) := by
        omega
      have hstep : (a :: t).flatMap (fun x => u16le (int16Bits (sampleToInt16 x)))
          = int16Bits (sampleToInt16 a) % 256 :: int16Bits (sampleToInt16 a) / 256 % 256 ::
            t.flatMap (fun x => u16le (int16Bits (sampleToInt16 x))) := rfl
      rw [hstep, decodePcm16_cons, harg, ih, List.map_cons]

/-- Stripping the 44-byte header of `audioToWav` leaves exactly the PCM
payload. -/
theorem decodeWav_audioToWav (audio : List ℚ) :
    decodeWav (audioToWav audio) =
      decodePcm16 (audio.flatMap fun x => u16le (int16Bits (sampleToInt16 x))) := by
  simp only [decodeWav, audioToWav, u32le, u16le, SAMPLE_RATE, List.cons_append,
    List.nil_append]
  rfl

end Wav

/-- Claim C1: encoding any `Float32` sample sequence with `audioToWav` yields a
blob of exactly 44 header bytes plus 2 bytes per sample, whose sample-rate
header field is the little-endian encoding of 16000 Hz, and decoding the
16-bit little-endian PCM payload reproduces every original sample (clamped to
`[-1, 1]`) within 16-bit quantization error `1 / 32767`. -/
theorem wav_encode_roundtrip (audio : List ℚ) :
    (Wav.audioToWav audio).length = 44 + 2 * audio.length ∧
    ((Wav.audioToWav audio).drop 24).take 4 = Wav.u32le 16000 ∧
    List.Forall₂ (fun d x => |d - Wav.clampSample x| < 1 / 32767)
      (Wav.decodeWav (Wav.audioToWav audio)) audio := by
  refine ⟨?_, ?_, ?_⟩
  · rw [Wav.audioToWav]
    repeat rw [List.length_append]
    rw [Wav.payload_length]
    simp only [Wav.u32le, Wav.u16le, List.length_cons, List.length_nil]
    try omega
  · simp only [Wav.audioToWav, Wav.u32le, Wav.u16le, Wav.SAMPLE_RATE, List.cons_append,
      List.nil_append]
    rfl
  · rw [Wav.decodeWav_audioToWav, Wav.decodePcm16_payload]
    rw [List.forall₂_map_left_iff]
    apply List.forall₂_same.mpr
    intro x _
    rw [Wav.int16OfBits_int16Bits _ (Wav.sampleToInt16_lb x) (Wav.sampleToInt16_ub x)]
    exact Wav.sampleOfInt16_sampleToInt16 x

/-! ## JavaScript string primitives used by the services -/

/-- JavaScript `String.prototype.startsWith`, character by character. -/
def strStartsWith (s pre : String) : Bool := pre.data.isPrefixOf s.data

/-! ## Transcription dispatch service (`transcription.ts`) -/

namespace Transcription

inductive SttProvider where
  | revai
  | openai
  deriving DecidableEq, Repr

inductive DiarizationType where
  | standard
  | premium
  deriving DecidableEq, Repr

/-- `TranscriptionConfig` of `transcription.ts`. -/
structure TranscriptionConfig where
  apiKey : String
  provider : Option SttProvider := none
  language : Option String := none
  skipDiarization : Option Bool := none
  speakersCount : Option ℕ := none
  diarizationType : Option DiarizationType := none
  deriving DecidableEq, Repr

/-- The mutable fields of the `TranscriptionService` singleton, together with
two instrumentation fields that record its interaction with the provider:
`submitted` collects every encoded WAV payload handed to a provider
submission (`processWithOpenAI` / `processWithRevAi`), and `inFlight` counts
jobs submitted whose `await` has not yet finished (the `finally` block of
`processBuffer` has not run). -/
structure TranscriptionState where
  config : Option TranscriptionConfig
  audioBuffer : List (List ℚ)
  bufferDuration : ℚ
  isProcessing : Bool
  processInterval : Bool
  submitted : List (List ℕ)
  inFlight : ℕ
  deriving DecidableEq, Repr

/-- The freshly constructed singleton. -/
def initialState : TranscriptionState :=
  { config := none, audioBuffer := [], bufferDuration := 0, isProcessing := false,
    processInterval := false, submitted := [], inFlight := 0 }

/-- `configure`: auto-detect the provider from the API-key prefix and store
the normalized configuration. -/
def configure (s : TranscriptionState) (config : TranscriptionConfig) : TranscriptionState :=
  let provider :=
    match config.provider with
    | some p => p
    | none =>
        if strStartsWith config.apiKey "sk-" then SttProvider.openai
        else if strStartsWith config.apiKey "02" then SttProvider.revai
        else SttProvider.revai
  { s with config := some { config with
      provider := some provider,
      skipDiarization := some (config.skipDiarization.getD false),
      diarizationType := some (config.diarizationType.getD DiarizationType.standard) } }

/-- `addAudioChunk`: push the chunk and extend the tracked duration
(milliseconds at the fixed 16 kHz rate). -/
def addAudioChunk (s : TranscriptionState) (data : List ℚ) : TranscriptionState :=
  { s with audioBuffer := s.audioBuffer ++ [data],
           bufferDuration := s.bufferDuration + ((data.length : ℚ) / Wav.SAMPLE_RATE) * 1000 }

/-- `combineAudioChunks`: concatenate the buffered chunks into one stream. -/
def combineAudioChunks (chunks : List (List ℚ)) : List ℚ := chunks.flatten

/-- `hasAudioContent`: the silence gate — the average absolute sample value
must exceed the fixed threshold `0.01`.  (For an empty sample list the
JavaScript code computes `NaN > 0.01 = false`; the rational model computes
`0 / 0 = 0 > 0.01 = false`, the same verdict.) -/
def hasAudioContent (audio : List ℚ) : Bool :=
  let threshold : ℚ := 1 / 100
  let sum := (audio.map (fun x => |x|)).sum
  let average := sum / (audio.length : ℚ)
  decide (average > threshold)

/-- One synchronous pass of `processBuffer` up to its first `await`: the
re-entrancy guard, buffer clearing, silence gate, minimum-duration gate and
— when all gates pass — WAV encoding and submission.  On the submission path
`isProcessing` stays `true` until the awaited provider round finishes
(`processComplete`); on the discard paths the code resets it to `false`
before returning, which from the caller's view leaves it unchanged. -/
def processBuffer (s : TranscriptionState) : TranscriptionState :=
  if s.isProcessing ∨ s.audioBuffer.isEmpty ∨ s.config.isNone then s
  else if ¬ hasAudioContent (combineAudioChunks s.audioBuffer) then
    { s with audioBuffer := [], bufferDuration := 0 }
  else if ((combineAudioChunks s.audioBuffer).length : ℚ) / Wav.SAMPLE_RATE < 1 / 2 then
    { s with audioBuffer := [], bufferDuration := 0 }
  else
    { s with audioBuffer := [], bufferDuration := 0, isProcessing := true,
             submitted := s.submitted ++ [Wav.audioToWav (combineAudioChunks s.audioBuffer)],
             inFlight := s.inFlight + 1 }

/-- The `finally` block of `processBuffer` running after the awaited
provider interaction (success or error): the in-flight job is finished and
`isProcessing` is released. -/
def processComplete (s : TranscriptionState) : TranscriptionState :=
  if s.isProcessing then { s with isProcessing := false, inFlight := s.inFlight - 1 } else s

/-- `start`: installs the periodic flush timer and resets the buffer. -/
def start (s : TranscriptionState) : TranscriptionState :=
  if s.processInterval then s
  else { s with audioBuffer := [], bufferDuration := 0, processInterval := true }

/-- `stop`: clear the flush timer, then process any remaining audio. -/
def stop (s : TranscriptionState) : TranscriptionState :=
  if s.audioBuffer.length > 0 then processBuffer { s with processInterval := false }
  else { s with processInterval := false }

/-- The events that drive the service: configuration, start/stop, incoming
capture chunks, the periodic flush timer firing (`processBuffer`), and the
completion of an awaited provider round. -/
inductive TEvent where
  | configure (cfg : TranscriptionConfig)
  | start
  | stop
  | addChunk (data : List ℚ)
  | tick
  | complete

def tstep (s : TranscriptionState) : TEvent → TranscriptionState
  | TEvent.configure cfg => configure s cfg
  | TEvent.start => start s
  | TEvent.stop => stop s
  | TEvent.addChunk data => addAudioChunk s data
  | TEvent.tick => processBuffer s
  | TEvent.complete => processComplete s

/-- States of the transcription service reachable from construction. -/
inductive TReachable : TranscriptionState → Prop where
  | init : TReachable initialState
  | step {s : TranscriptionState} (e : TEvent) : TReachable s → TReachable (tstep s e)

/-- `processBuffer` preserves the tie between the in-flight count and the
`isProcessing` flag. -/
theorem processBuffer_inFlight (s : TranscriptionState)
    (h : s.inFlight = (if s.isProcessing then 1 else 0)) :
    (processBuffer s).inFlight = (if (processBuffer s).isProcessing then 1 else 0) := by
  unfold processBuffer
  split
  · exact h
  · rename_i hguard
    have hp : s.isProcessing = false := by
      have := (not_or.mp hguard).1
      simpa using this
    simp [hp] at h
    split
    · simp [hp, h]
    · split
      · simp [hp, h]
      · simp [h]

/-- Reachability invariant: the in-flight job count is tied to the
`isProcessing` flag — there is one unfinished submission exactly while the
flag is held. -/
theorem inFlight_eq_isProcessing {s : TranscriptionState} (h : TReachable s) :
    s.inFlight = (if s.isProcessing then 1 else 0) := by
  induction h with
  | init => rfl
  | step e _ ih =>
      rename_i s' _
      cases e with
      | configure cfg => simpa [tstep, configure] using ih
      | start =>
          simp only [tstep, start]
          split <;> simpa using ih
      | stop =>
          simp only [tstep, stop]
          split
          · exact processBuffer_inFlight _ (by simpa using ih)
          · simpa using ih
      | addChunk data => simpa [tstep, addAudioChunk] using ih
      | tick => exact processBuffer_inFlight _ ih
      | complete =>
          simp only [tstep, processComplete]
          split
          · rename_i hp
            rw [hp] at ih
            simp at ih
            simp [ih]
          · rename_i hp
            have hfalse : s'.isProcessing = false := by simpa using hp
            simpa [hfalse] using ih

end Transcription

/-- Claim C2: a buffered window whose average absolute sample value is at or
below the silence threshold `0.01` (including the all-zeros buffer) is
discarded by `processBuffer` without any submission, and — together with the
minimum-duration gate — these are the only drops: a non-silent window of at
least half a second is always encoded and submitted. -/
theorem silence_gate_only_drop (s : Transcription.TranscriptionState)
    (hp : s.isProcessing = false) (hb : s.audioBuffer.isEmpty = false)
    (hc : s.config.isNone = false) :
    (((Transcription.combineAudioChunks s.audioBuffer).map (fun x => |x|)).sum /
        ((Transcription.combineAudioChunks s.audioBuffer).length : ℚ) ≤ 1 / 100 →
      Transcription.processBuffer s = { s with audioBuffer := [], bufferDuration := 0 }) ∧
    (1 / 100 < ((Transcription.combineAudioChunks s.audioBuffer).map (fun x => |x|)).sum /
        ((Transcription.combineAudioChunks s.audioBuffer).length : ℚ) →
      1 / 2 ≤ ((Transcription.combineAudioChunks s.audioBuffer).length : ℚ) / Wav.SAMPLE_RATE →
      (Transcription.processBuffer s).submitted
          = s.submitted ++ [Wav.audioToWav (Transcription.combineAudioChunks s.audioBuffer)] ∧
        (Transcription.processBuffer s).audioBuffer = []) := by
  have hguard : ¬ (s.isProcessing = true ∨ s.audioBuffer.isEmpty = true ∨
      s.config.isNone = true) := by
    simp [hp, hb, hc]
  have hcontent : Transcription.hasAudioContent (Transcription.combineAudioChunks s.audioBuffer)
      = decide (((Transcription.combineAudioChunks s.audioBuffer).map (fun x => |x|)).sum /
          ((Transcription.combineAudioChunks s.audioBuffer).length : ℚ) > 1 / 100) := rfl
  constructor
  · intro hsil
    have hfalse : Transcription.hasAudioContent (Transcription.combineAudioChunks s.audioBuffer)
        = false := by
      rw [hcontent, decide_eq_false_iff_not]
      exact not_lt.mpr hsil
    unfold Transcription.processBuffer
    rw [if_neg hguard, if_pos (by simp [hfalse])]
  · intro hloud hlong
    have htrue : Transcription.hasAudioContent (Transcription.combineAudioChunks s.audioBuffer)
        = true := by
      rw [hcontent, decide_eq_true_iff]
      exact hloud
    unfold Transcription.processBuffer
    rw [if_neg hguard, if_neg (by simp [htrue]), if_neg (not_lt.mpr hlong)]
    exact ⟨rfl, rfl⟩

/-- Witness for `silence_gate_only_drop`: an all-zeros two-sample window is
dropped with no submission, and a loud half-second window is submitted. -/
theorem silence_gate_only_drop_witness :
    (Transcription.processBuffer
        { config := some { apiKey := "02demo" }, audioBuffer := [[0, 0]], bufferDuration := 0,
          isProcessing := false, processInterval := true, submitted := [], inFlight := 0 }
      = { config := some { apiKey := "02demo" }, audioBuffer := [], bufferDuration := 0,
          isProcessing := false, processInterval := true, submitted := [], inFlight := 0 }) ∧
    (Transcription.processBuffer
        { config := some { apiKey := "02demo" },
          audioBuffer := [List.replicate 8000 ((1 : ℚ) / 2)], bufferDuration := 500,
          isProcessing := false, processInterval := true, submitted := [], inFlight := 0 }).submitted
      = [Wav.audioToWav (Transcription.combineAudioChunks [List.replicate 8000 ((1 : ℚ) / 2)])] := by
  constructor
  · have h := (silence_gate_only_drop
      { config := some { apiKey := "02demo" }, audioBuffer := [[0, 0]], bufferDuration := 0,
        isProcessing := false, processInterval := true, submitted := [], inFlight := 0 }
      rfl rfl rfl).1
    have hz : ((Transcription.combineAudioChunks [[(0 : ℚ), 0]]).map (fun x => |x|)).sum /
        ((Transcription.combineAudioChunks [[(0 : ℚ), 0]]).length : ℚ) ≤ 1 / 100 := by
      norm_num [Transcription.combineAudioChunks]
    exact h hz
  · have h := (silence_gate_only_drop
      { config := some { apiKey := "02demo" },
        audioBuffer := [List.replicate 8000 ((1 : ℚ) / 2)], bufferDuration := 500,
        isProcessing := false, processInterval := true, submitted := [], inFlight := 0 }
      rfl rfl rfl).2
    have hcomb : Transcription.combineAudioChunks [List.replicate 8000 ((1 : ℚ) / 2)]
        = List.replicate 8000 ((1 : ℚ) / 2) := by
      simp only [Transcription.combineAudioChunks, List.flatten_cons, List.flatten_nil,
        List.append_nil]
    have habs : (List.replicate 8000 ((1 : ℚ) / 2)).map (fun x => |x|)
        = List.replicate 8000 ((1 : ℚ) / 2) := by
      rw [List.map_replicate]
      norm_num
    have hloud : 1 / 100 <
        ((Transcription.combineAudioChunks [List.replicate 8000 ((1 : ℚ) / 2)]).map
            (fun x => |x|)).sum /
          ((Transcription.combineAudioChunks [List.replicate 8000 ((1 : ℚ) / 2)]).length : ℚ) := by
      rw [hcomb, habs, List.sum_replicate, List.length_replicate, nsmul_eq_mul]
      norm_num
    have hlong : 1 / 2 ≤
        ((Transcription.combineAudioChunks [List.replicate 8000 ((1 : ℚ) / 2)]).length : ℚ) /
          Wav.SAMPLE_RATE := by
      rw [hcomb, List.length_replicate]
      norm_num [Wav.SAMPLE_RATE]
    simpa only [List.nil_append] using (h hloud hlong).1

/-- Claim C3: flush cycles are strictly sequential.  A `processBuffer`
invocation while a previous window is still being processed
(`isProcessing = true`) is a no-op — no encoding, no submission, the buffer
keeps accumulating — and consequently no reachable state of the service ever
has more than one window in flight. -/
theorem single_window_in_flight :
    (∀ s : Transcription.TranscriptionState, s.isProcessing = true →
        Transcription.processBuffer s = s) ∧
    (∀ s : Transcription.TranscriptionState, Transcription.TReachable s → s.inFlight ≤ 1) := by
  constructor
  · intro s hp
    unfold Transcription.processBuffer
    rw [if_pos (Or.inl hp)]
  · intro s hr
    rw [Transcription.inFlight_eq_isProcessing hr]
    split <;> norm_num

/-- A busy dispatch state: a window in flight while audio is buffered. -/
def procBusyState : Transcription.TranscriptionState :=
  { config := some { apiKey := "02demo" }, audioBuffer := [[1, 1]], bufferDuration := 0,
    isProcessing := true, processInterval := true, submitted := [], inFlight := 1 }

/-- Witness for `single_window_in_flight`: a busy state is left untouched by
a tick, and the initial state is reachable with at most one job in flight. -/
theorem single_window_in_flight_witness :
    (procBusyState.isProcessing = true ∧
      Transcription.processBuffer procBusyState = procBusyState) ∧
    (Transcription.TReachable Transcription.initialState ∧
      Transcription.initialState.inFlight ≤ 1) :=
  ⟨⟨rfl, single_window_in_flight.1 _ rfl⟩,
   ⟨Transcription.TReachable.init,
    single_window_in_flight.2 _ Transcription.TReachable.init⟩⟩

/-- A loud (constant `1/2`) half-second chunk at 16 kHz. -/
def loudChunk : List ℚ := List.replicate 8000 (1 / 2)

theorem loudChunk_content :
    Transcription.hasAudioContent (Transcription.combineAudioChunks [loudChunk]) = true := by
  have hcomb : Transcription.combineAudioChunks [loudChunk] = loudChunk := by
    simp only [Transcription.combineAudioChunks, List.flatten_cons, List.flatten_nil,
      List.append_nil]
  have habs : loudChunk.map (fun x => |x|) = loudChunk := by
    unfold loudChunk
    rw [List.map_replicate]
    norm_num
  have : Transcription.hasAudioContent (Transcription.combineAudioChunks [loudChunk])
      = decide (((Transcription.combineAudioChunks [loudChunk]).map (fun x => |x|)).sum /
          ((Transcription.combineAudioChunks [loudChunk]).length : ℚ) > 1 / 100) := rfl
  rw [this, hcomb, habs, decide_eq_true_iff]
  unfold loudChunk
  rw [List.sum_replicate, List.length_replicate, nsmul_eq_mul]
  norm_num

theorem loudChunk_long :
    ¬ ((Transcription.combineAudioChunks [loudChunk]).length : ℚ) / Wav.SAMPLE_RATE
      < 1 / 2 := by
  have hcomb : Transcription.combineAudioChunks [loudChunk] = loudChunk := by
    simp only [Transcription.combineAudioChunks, List.flatten_cons, List.flatten_nil,
      List.append_nil]
  rw [hcomb]
  unfold loudChunk
  rw [List.length_replicate]
  norm_num [Wav.SAMPLE_RATE]

/-- Claim C4 (amended): when `stop` is called with non-silent audio of at
least half a second buffered, the service configured, and no previous window
still in flight (`isProcessing = false`), exactly one final flush and
submission of that buffer occurs during shutdown. -/
theorem stop_final_flush (s : Transcription.TranscriptionState)
    (hp : s.isProcessing = false) (hb : s.audioBuffer.isEmpty = false)
    (hc : s.config.isNone = false)
    (hloud : Transcription.hasAudioContent (Transcription.combineAudioChunks s.audioBuffer)
      = true)
    (hlong : ¬ ((Transcription.combineAudioChunks s.audioBuffer).length : ℚ) / Wav.SAMPLE_RATE
      < 1 / 2) :
    (Transcription.stop s).submitted
        = s.submitted ++ [Wav.audioToWav (Transcription.combineAudioChunks s.audioBuffer)] ∧
      (Transcription.stop s).audioBuffer = [] ∧
      (Transcription.stop s).processInterval = false := by
  have hlen : 0 < s.audioBuffer.length := by
    cases hab : s.audioBuffer with
    | nil => rw [hab] at hb; exact absurd hb (by simp)
    | cons a t => simp [hab]
  unfold Transcription.stop
  rw [if_pos (by simpa using hlen)]
  unfold Transcription.processBuffer
  rw [if_neg (by simp [hp, hb, hc]), if_neg (by simp [hloud]), if_neg hlong]
  exact ⟨rfl, rfl, rfl⟩

/-- Witness for `stop_final_flush`: a concrete idle state with a loud
half-second buffer is flushed and submitted by `stop`. -/
theorem stop_final_flush_witness :
    (Transcription.stop
        { config := some { apiKey := "02demo" }, audioBuffer := [loudChunk],
          bufferDuration := 500, isProcessing := false, processInterval := true,
          submitted := [], inFlight := 0 }).submitted
      = [Wav.audioToWav (Transcription.combineAudioChunks [loudChunk])] := by
  have h := stop_final_flush
    { config := some { apiKey := "02demo" }, audioBuffer := [loudChunk],
      bufferDuration := 500, isProcessing := false, processInterval := true,
      submitted := [], inFlight := 0 }
    rfl rfl rfl loudChunk_content loudChunk_long
  simpa only [List.nil_append] using h.1

/-- The configuration stored by `configure { apiKey := "02demo" }` (provider
auto-detected as Rev.ai from the key prefix). -/
def cfgStored : Transcription.TranscriptionConfig :=
  { apiKey := "02demo", provider := some Transcription.SttProvider.revai,
    skipDiarization := some false,
    diarizationType := some Transcription.DiarizationType.standard }

/-- The state after configuring, starting and buffering one loud chunk. -/
def bufferedIdleState : Transcription.TranscriptionState :=
  { config := some cfgStored, audioBuffer := [loudChunk],
    bufferDuration := 0 + ((loudChunk.length : ℚ) / Wav.SAMPLE_RATE) * 1000,
    isProcessing := false, processInterval := true, submitted := [], inFlight := 0 }

/-- The state right after the flush timer submitted that window (still in
flight). -/
def flushedState : Transcription.TranscriptionState :=
  { config := some cfgStored, audioBuffer := [], bufferDuration := 0,
    isProcessing := true, processInterval := true,
    submitted := [Wav.audioToWav (Transcription.combineAudioChunks [loudChunk])],
    inFlight := 1 }

/-- A reachable state in which a previous window is still in flight while a
new loud half-second window has accumulated in the buffer. -/
def busyBufferedState : Transcription.TranscriptionState :=
  Transcription.tstep
    (Transcription.tstep
      (Transcription.tstep
        (Transcription.tstep
          (Transcription.tstep Transcription.initialState
            (Transcription.TEvent.configure { apiKey := "02demo" }))
          Transcription.TEvent.start)
        (Transcription.TEvent.addChunk loudChunk))
      Transcription.TEvent.tick)
    (Transcription.TEvent.addChunk loudChunk)

theorem busyBufferedState_reachable : Transcription.TReachable busyBufferedState :=
  Transcription.TReachable.step _
    (Transcription.TReachable.step _
      (Transcription.TReachable.step _
        (Transcription.TReachable.step _
          (Transcription.TReachable.step _ Transcription.TReachable.init))))

theorem flushTick_eq : Transcription.tstep (Transcription.tstep (Transcription.tstep
      (Transcription.tstep Transcription.initialState
        (Transcription.TEvent.configure { apiKey := "02demo" }))
      Transcription.TEvent.start)
      (Transcription.TEvent.addChunk loudChunk)) Transcription.TEvent.tick
    = flushedState := by
  show Transcription.processBuffer _ = _
  rw [show Transcription.tstep (Transcription.tstep (Transcription.tstep
      Transcription.initialState
      (Transcription.TEvent.configure { apiKey := "02demo" })) Transcription.TEvent.start)
    (Transcription.TEvent.addChunk loudChunk) = bufferedIdleState from rfl]
  unfold bufferedIdleState flushedState
  unfold Transcription.processBuffer
  rw [if_neg (by simp), if_neg (by simpa using loudChunk_content),
    if_neg (by simpa using loudChunk_long)]
  rfl

theorem busyBufferedState_audioBuffer : busyBufferedState.audioBuffer = [loudChunk] := by
  show (Transcription.addAudioChunk _ loudChunk).audioBuffer = [loudChunk]
  rw [Transcription.addAudioChunk, flushTick_eq]
  rfl

theorem busyBufferedState_isProcessing : busyBufferedState.isProcessing = true := by
  show (Transcription.addAudioChunk _ loudChunk).isProcessing = true
  rw [Transcription.addAudioChunk, flushTick_eq]
  rfl

theorem busyBufferedState_configured : busyBufferedState.config.isNone = false := by
  show (Transcription.addAudioChunk _ loudChunk).config.isNone = false
  rw [Transcription.addAudioChunk, flushTick_eq]
  rfl

theorem busyBufferedState_buffer_len : busyBufferedState.audioBuffer.length > 0 := by
  rw [busyBufferedState_audioBuffer]
  norm_num

/-- `busyBufferedState`, written out field by field. -/
def busyLit : Transcription.TranscriptionState :=
  { config := some cfgStored, audioBuffer := [loudChunk],
    bufferDuration := 0 + ((loudChunk.length : ℚ) / Wav.SAMPLE_RATE) * 1000,
    isProcessing := true, processInterval := true,
    submitted := [Wav.audioToWav (Transcription.combineAudioChunks [loudChunk])],
    inFlight := 1 }

theorem busyBufferedState_eq : busyBufferedState = busyLit := by
  show Transcription.addAudioChunk _ loudChunk = busyLit
  rw [Transcription.addAudioChunk, flushTick_eq]
  rfl

theorem stop_busyBufferedState :
    (Transcription.stop busyBufferedState).submitted = busyBufferedState.submitted := by
  rw [busyBufferedState_eq]
  unfold Transcription.stop busyLit
  rw [if_pos (by norm_num)]
  unfold Transcription.processBuffer
  rw [if_pos (Or.inl rfl)]

/-- Claim C4 counterexample: on `busyBufferedState` — a reachable state whose
buffer holds non-silent audio of sufficient duration, but whose previous
window is still in flight — `stop` submits nothing: the partial buffer is
dropped without a final flush, contradicting the claim as stated for every
state. -/
theorem stop_flush_counterexample :
    Transcription.TReachable busyBufferedState ∧
    busyBufferedState.audioBuffer = [loudChunk] ∧
    Transcription.hasAudioContent
      (Transcription.combineAudioChunks busyBufferedState.audioBuffer) = true ∧
    ¬ ((Transcription.combineAudioChunks busyBufferedState.audioBuffer).length : ℚ) /
        Wav.SAMPLE_RATE < 1 / 2 ∧
    busyBufferedState.config.isNone = false ∧
    (Transcription.stop busyBufferedState).submitted = busyBufferedState.submitted := by
  refine ⟨busyBufferedState_reachable, busyBufferedState_audioBuffer, ?_, ?_,
    busyBufferedState_configured, stop_busyBufferedState⟩
  · rw [busyBufferedState_audioBuffer]
    exact loudChunk_content
  · rw [busyBufferedState_audioBuffer]
    exact loudChunk_long

/-! ## Speaker attribution service (`speakerDiarization.ts`) -/

/-- `TranscriptEntry` (`types/index.ts`); `Date` values are epoch
milliseconds. -/
structure TranscriptEntry where
  id : String
  meetingId : String
  speakerId : String
  speakerName : String
  text : String
  timestamp : ℕ
  endTimestamp : ℕ
  confidence : ℚ
  language : String
  translation : Option String := none
  createdAt : ℕ
  deriving DecidableEq, Repr

namespace Diarization

/-- The acoustic features handed to `identifySpeaker`. -/
structure AudioFeatures where
  pitch : ℚ
  energy : ℚ
  duration : ℚ
  deriving DecidableEq, Repr

inductive DiarMethod where
  | simple
  | assemblyai
  | pyannote
  deriving DecidableEq, Repr

/-- `DiarizationConfig` of `speakerDiarization.ts`. -/
structure DiarizationConfig where
  minSpeakers : Option ℕ := none
  maxSpeakers : Option ℕ := none
  method : DiarMethod
  apiKey : Option String := none
  deriving DecidableEq, Repr

/-- `SpeakerProfile`, with `voiceCharacteristics` inlined. -/
structure SpeakerProfile where
  id : String
  name : String
  color : String
  avgPitch : ℚ
  avgEnergy : ℚ
  speakingRate : ℚ
  utteranceCount : ℕ
  deriving DecidableEq, Repr

/-- The `speakerColors` palette. -/
def speakerColors : List String :=
  ["#3b82f6", "#10b981", "#f59e0b", "#ef4444", "#8b5cf6", "#ec4899", "#06b6d4", "#f97316"]

/-- The mutable fields of the `SpeakerDiarizationService` singleton; the
`speakers` `Map` is kept in insertion order, keyed by `SpeakerProfile.id`. -/
structure DiarState where
  config : Option DiarizationConfig
  speakers : List SpeakerProfile
  nextSpeakerIndex : ℕ
  deriving DecidableEq, Repr

/-- The freshly constructed singleton. -/
def initialDiarState : DiarState :=
  { config := none, speakers := [], nextSpeakerIndex := 0 }

/-- The attribution result triple. -/
structure IdResult where
  speakerId : String
  speakerName : String
  confidence : ℚ
  deriving DecidableEq, Repr

/-- `this.config?.maxSpeakers || 4`: the configured roster maximum, falling
back to 4 when unconfigured or zero (JavaScript `||` on a falsy number). -/
def maxSpeakersOrDefault (config : Option DiarizationConfig) : ℕ :=
  match config with
  | none => 4
  | some c =>
      match c.maxSpeakers with
      | none => 4
      | some m => if m = 0 then 4 else m

/-- `createNewSpeaker`: seed a profile from the current features (`|| 150`,
`|| 0.5` and the `duration ? 1000/duration : 3` fallbacks follow JavaScript
falsiness of `0`) and append it to the roster. -/
def createNewSpeaker (s : DiarState) (audioFeatures : Option AudioFeatures) :
    SpeakerProfile × DiarState :=
  let speakerId := "speaker-" ++ toString (s.nextSpeakerIndex + 1)
  let speakerName := "Speaker " ++ toString (s.nextSpeakerIndex + 1)
  let color := speakerColors.getD (s.nextSpeakerIndex % speakerColors.length) ""
  let speaker : SpeakerProfile :=
    { id := speakerId, name := speakerName, color := color,
      avgPitch := match audioFeatures with
        | some af => if af.pitch = 0 then 150 else af.pitch
        | none => 150,
      avgEnergy := match audioFeatures with
        | some af => if af.energy = 0 then 1 / 2 else af.energy
        | none => 1 / 2,
      speakingRate := match audioFeatures with
        | some af => if af.duration = 0 then 3 else 1000 / af.duration
        | none => 3,
      utteranceCount := 1 }
  (speaker, { s with speakers := s.speakers ++ [speaker],
                     nextSpeakerIndex := s.nextSpeakerIndex + 1 })

/-- `updateSpeakerProfile`: running-average update of the profile with the
given id (a missing profile or missing features is a no-op; `1000 / 0 = 0`
stands in for the JavaScript `Infinity` on a zero duration, which no claim
touches). -/
def updateSpeakerProfile (s : DiarState) (speakerId : String)
    (audioFeatures : Option AudioFeatures) : DiarState :=
  match audioFeatures with
  | none => s
  | some af =>
      { s with speakers := s.speakers.map (fun sp =>
          if sp.id = speakerId then
            { sp with
              avgPitch := (sp.avgPitch * sp.utteranceCount + af.pitch) /
                (sp.utteranceCount + 1),
              avgEnergy := (sp.avgEnergy * sp.utteranceCount + af.energy) /
                (sp.utteranceCount + 1),
              speakingRate := (sp.speakingRate * sp.utteranceCount + 1000 / af.duration) /
                (sp.utteranceCount + 1),
              utteranceCount := sp.utteranceCount + 1 }
          else sp) }

/-- `getTimeSinceLastUtterance`: the source stub always returns 1000 ms. -/
def getTimeSinceLastUtterance : ℚ := 1000

/-- The similarity score of `simpleIdentification`:
`1 / (1 + |Δpitch| + |Δenergy|)`. -/
def similarityScore (audioFeatures : AudioFeatures) (speaker : SpeakerProfile) : ℚ :=
  1 / (1 + |speaker.avgPitch - audioFeatures.pitch| + |speaker.avgEnergy - audioFeatures.energy|)

/-- The best-match loop of `simpleIdentification`: starting from
`bestMatch = null, bestScore = 0`, take a speaker whenever its score beats
the current best and exceeds the `0.6` acceptance threshold. -/
def bestMatchFold (audioFeatures : AudioFeatures) (l : List SpeakerProfile) :
    Option SpeakerProfile × ℚ :=
  l.foldl
    (fun acc speaker =>
      if similarityScore audioFeatures speaker > acc.2 ∧
          similarityScore audioFeatures speaker > 3 / 5 then
        (some speaker, similarityScore audioFeatures speaker)
      else acc)
    (none, 0)

/-- `recentSpeakers`: profiles with at least one utterance, sorted by
utterance count descending (JavaScript `Array.prototype.sort` is stable;
`List.mergeSort` is the corresponding stable sort). -/
def recentSpeakersOf (s : DiarState) : List SpeakerProfile :=
  (s.speakers.filter (fun sp => 0 < sp.utteranceCount)).mergeSort
    (fun a b => decide (b.utteranceCount ≤ a.utteranceCount))

/-- The acoustic-match block of `simpleIdentification` (`if (audioFeatures &&
recentSpeakers.length > 0) { ... if (bestMatch) return ... }`). -/
def acousticMatch (s : DiarState) (recentSpeakers : List SpeakerProfile)
    (audioFeatures : Option AudioFeatures) : Option (IdResult × DiarState) :=
  match audioFeatures with
  | some af =>
      if recentSpeakers.length > 0 then
        match bestMatchFold af recentSpeakers with
        | (some bestMatch, bestScore) =>
            some ({ speakerId := bestMatch.id, speakerName := bestMatch.name,
                    confidence := bestScore },
                  updateSpeakerProfile s bestMatch.id audioFeatures)
        | (none, _) => none
      else none
  | none => none

/-- The timing-gap block of `simpleIdentification` (alternate to another
speaker after a >2 s gap); `getTimeSinceLastUtterance` is the source's
constant stub, so the gap test never fires. -/
def timingSwitch (s : DiarState) (recentSpeakers : List SpeakerProfile)
    (audioFeatures : Option AudioFeatures) : Option (IdResult × DiarState) :=
  if getTimeSinceLastUtterance > 2000 ∧ recentSpeakers.length > 0 then
    match recentSpeakers.head? with
    | some lastSpeaker =>
        match recentSpeakers.find? (fun sp => sp.id ≠ lastSpeaker.id) with
        | some otherSpeaker =>
            some ({ speakerId := otherSpeaker.id, speakerName := otherSpeaker.name,
                    confidence := 7 / 10 },
                  updateSpeakerProfile s otherSpeaker.id audioFeatures)
        | none => none
    | none => none
  else none

/-- The tail of `simpleIdentification`: roster-cap guarded creation, then
the most-recent-speaker default. -/
def rosterFallback (s : DiarState) (recentSpeakers : List SpeakerProfile)
    (audioFeatures : Option AudioFeatures) : IdResult × DiarState :=
  if s.speakers.length = 0 ∨
      (getTimeSinceLastUtterance > 2000 ∧
        s.speakers.length < maxSpeakersOrDefault s.config) then
    let (newSpeaker, s1) := createNewSpeaker s audioFeatures
    ({ speakerId := newSpeaker.id, speakerName := newSpeaker.name, confidence := 3 / 5 }, s1)
  else
    match recentSpeakers.head? with
    | some defaultSpeaker =>
        ({ speakerId := defaultSpeaker.id, speakerName := defaultSpeaker.name,
           confidence := 1 / 2 },
         updateSpeakerProfile s defaultSpeaker.id audioFeatures)
    | none =>
        let (defaultSpeaker, s1) := createNewSpeaker s audioFeatures
        ({ speakerId := defaultSpeaker.id, speakerName := defaultSpeaker.name,
           confidence := 1 / 2 },
         updateSpeakerProfile s1 defaultSpeaker.id audioFeatures)

/-- `simpleIdentification`: acoustic best-match, timing heuristic, roster-cap
guarded creation, and most-recent-speaker default, in source order. -/
def simpleIdentification (s : DiarState) (_entry : TranscriptEntry)
    (audioFeatures : Option AudioFeatures) : IdResult × DiarState :=
  let recentSpeakers := recentSpeakersOf s
  match acousticMatch s recentSpeakers audioFeatures with
  | some r => r
  | none =>
      match timingSwitch s recentSpeakers audioFeatures with
      | some r => r
      | none => rosterFallback s recentSpeakers audioFeatures

/-- `identifySpeaker`: unconfigured and cloud methods fall back to the
`speaker-1` placeholder; the `simple` method runs the heuristics. -/
def identifySpeaker (s : DiarState) (entry : TranscriptEntry)
    (audioFeatures : Option AudioFeatures) : IdResult × DiarState :=
  match s.config with
  | none => ({ speakerId := "speaker-1", speakerName := "Speaker 1", confidence := 1 / 2 }, s)
  | some cfg =>
      match cfg.method with
      | DiarMethod.simple => simpleIdentification s entry audioFeatures
      | DiarMethod.assemblyai =>
          ({ speakerId := "speaker-1", speakerName := "Speaker 1", confidence := 4 / 5 }, s)
      | DiarMethod.pyannote =>
          ({ speakerId := "speaker-1", speakerName := "Speaker 1", confidence := 1 / 2 }, s)

/-- `configure` of the diarization service. -/
def configureDiar (s : DiarState) (config : DiarizationConfig) : DiarState :=
  { s with config := some config }

/-- `updateSpeakerName`: rename a profile (no-op when absent). -/
def updateSpeakerName (s : DiarState) (speakerId : String) (name : String) : DiarState :=
  { s with speakers := s.speakers.map (fun sp =>
      if sp.id = speakerId then { sp with name := name } else sp) }

/-- `reset`: clear the roster. -/
def resetDiar (_s : DiarState) : DiarState := initialDiarState

/-- The events that drive the diarization service. -/
inductive DEvent where
  | configure (cfg : DiarizationConfig)
  | identify (entry : TranscriptEntry) (audioFeatures : Option AudioFeatures)
  | rename (speakerId : String) (name : String)
  | reset

def dstep (s : DiarState) : DEvent → DiarState
  | DEvent.configure cfg => configureDiar s cfg
  | DEvent.identify entry af => (identifySpeaker s entry af).2
  | DEvent.rename speakerId name => updateSpeakerName s speakerId name
  | DEvent.reset => resetDiar s

/-- States of the diarization service reachable from construction. -/
inductive DReachable : DiarState → Prop where
  | init : DReachable initialDiarState
  | step {s : DiarState} (e : DEvent) : DReachable s → DReachable (dstep s e)

end Diarization

namespace Diarization

theorem similarityScore_pos (af : AudioFeatures) (sp : SpeakerProfile) :
    0 < similarityScore af sp := by
  unfold similarityScore
  have h1 := abs_nonneg (sp.avgPitch - af.pitch)
  have h2 := abs_nonneg (sp.avgEnergy - af.energy)
  positivity

theorem similarityScore_le_one (af : AudioFeatures) (sp : SpeakerProfile) :
    similarityScore af sp ≤ 1 := by
  unfold similarityScore
  have h1 := abs_nonneg (sp.avgPitch - af.pitch)
  have h2 := abs_nonneg (sp.avgEnergy - af.energy)
  rw [div_le_one (by positivity)]
  linarith

theorem similarityScore_eq_one_iff (af : AudioFeatures) (sp : SpeakerProfile) :
    similarityScore af sp = 1 ↔ sp.avgPitch = af.pitch ∧ sp.avgEnergy = af.energy := by
  unfold similarityScore
  have h1 := abs_nonneg (sp.avgPitch - af.pitch)
  have h2 := abs_nonneg (sp.avgEnergy - af.energy)
  constructor
  · intro h
    rw [div_eq_one_iff_eq (by positivity)] at h
    have hp : |sp.avgPitch - af.pitch| = 0 := by linarith
    have he : |sp.avgEnergy - af.energy| = 0 := by linarith
    constructor
    · have := abs_eq_zero.mp hp
      linarith [sub_eq_zero.mp this]
    · have := abs_eq_zero.mp he
      linarith [sub_eq_zero.mp this]
  · rintro ⟨hp, he⟩
    rw [hp, he]
    norm_num

/-- One step of the best-match loop. -/
def bestMatchStep (audioFeatures : AudioFeatures) (acc : Option SpeakerProfile × ℚ)
    (speaker : SpeakerProfile) : Option SpeakerProfile × ℚ :=
  if similarityScore audioFeatures speaker > acc.2 ∧
      similarityScore audioFeatures speaker > 3 / 5 then
    (some speaker, similarityScore audioFeatures speaker)
  else acc

theorem bestMatchFold_eq_foldl (af : AudioFeatures) (l : List SpeakerProfile) :
    bestMatchFold af l = l.foldl (bestMatchStep af) (none, 0) := rfl

theorem bestMatchStep_mono (af : AudioFeatures) (acc : Option SpeakerProfile × ℚ)
    (sp : SpeakerProfile) : acc.2 ≤ (bestMatchStep af acc sp).2 := by
  unfold bestMatchStep
  split
  · rename_i h
    exact le_of_lt h.1
  · exact le_refl _

theorem bestMatchStep_le_one (af : AudioFeatures) (acc : Option SpeakerProfile × ℚ)
    (sp : SpeakerProfile) (h : acc.2 ≤ 1) : (bestMatchStep af acc sp).2 ≤ 1 := by
  unfold bestMatchStep
  split
  · exact similarityScore_le_one af sp
  · exact h

theorem foldl_bestMatchStep_mono (af : AudioFeatures) (l : List SpeakerProfile) :
    ∀ acc : Option SpeakerProfile × ℚ, acc.2 ≤ (l.foldl (bestMatchStep af) acc).2 := by
  induction l with
  | nil => intro acc; exact le_refl _
  | cons x t ih =>
      intro acc
      rw [List.foldl_cons]
      exact le_trans (bestMatchStep_mono af acc x) (ih (bestMatchStep af acc x))

theorem foldl_bestMatchStep_le_one (af : AudioFeatures) (l : List SpeakerProfile) :
    ∀ acc : Option SpeakerProfile × ℚ, acc.2 ≤ 1 → (l.foldl (bestMatchStep af) acc).2 ≤ 1 := by
  induction l with
  | nil => intro acc h; exact h
  | cons x t ih =>
      intro acc h
      rw [List.foldl_cons]
      exact ih _ (bestMatchStep_le_one af acc x h)

/-- The best-match loop either never updates the accumulator, or ends on some
listed speaker whose score beat the `0.6` threshold. -/
theorem foldl_bestMatchStep_shape (af : AudioFeatures) (l : List SpeakerProfile) :
    ∀ acc : Option SpeakerProfile × ℚ,
      l.foldl (bestMatchStep af) acc = acc ∨
      ∃ b ∈ l, l.foldl (bestMatchStep af) acc = (some b, similarityScore af b) ∧
        similarityScore af b > 3 / 5 := by
  induction l with
  | nil => intro acc; left; rfl
  | cons x t ih =>
      intro acc
      rw [List.foldl_cons]
      rcases ih (bestMatchStep af acc x) with h | ⟨b, hb, h, hs⟩
      · rw [h]
        unfold bestMatchStep
        split
        · rename_i hcond
          right
          exact ⟨x, List.mem_cons_self x t, rfl, hcond.2⟩
        · left; rfl
      · right
        exact ⟨b, List.mem_cons_of_mem x hb, h, hs⟩

/-- If some listed speaker scores exactly `1`, the loop finishes with best
score `1`. -/
theorem foldl_bestMatchStep_score_one (af : AudioFeatures) (l : List SpeakerProfile) :
    ∀ acc : Option SpeakerProfile × ℚ, acc.2 ≤ 1 →
      (∃ x ∈ l, similarityScore af x = 1) →
      (l.foldl (bestMatchStep af) acc).2 = 1 := by
  induction l with
  | nil =>
      intro acc _ hx
      rcases hx with ⟨x, hx, _⟩
      exact absurd hx (List.not_mem_nil x)
  | cons z t ih =>
      intro acc hacc hx
      rcases hx with ⟨x, hx, hsx⟩
      rcases List.mem_cons.mp hx with hxz | hxt
      · subst hxz
        rw [List.foldl_cons]
        have hstep : (bestMatchStep af acc x).2 = 1 := by
          unfold bestMatchStep
          split
          · exact hsx
          · rename_i hcond
            rw [not_and_or] at hcond
            rcases hcond with hc | hc
            · have : acc.2 = 1 := le_antisymm hacc (by
                rw [← hsx]
                exact not_lt.mp hc)
              exact this
            · exact absurd (by rw [hsx]; norm_num) hc
        have h1 := foldl_bestMatchStep_mono af t (bestMatchStep af acc x)
        have h2 := foldl_bestMatchStep_le_one af t (bestMatchStep af acc x)
          (by rw [hstep])
        rw [hstep] at h1
        exact le_antisymm h2 h1
      · rw [List.foldl_cons]
        exact ih _ (bestMatchStep_le_one af acc z hacc) ⟨x, hxt, hsx⟩

/-- Membership in `recentSpeakers` comes from the roster with a positive
utterance count. -/
theorem mem_recentSpeakersOf {s : DiarState} {sp : SpeakerProfile}
    (h : sp ∈ recentSpeakersOf s) : sp ∈ s.speakers ∧ 0 < sp.utteranceCount := by
  unfold recentSpeakersOf at h
  have h2 := (List.mergeSort_perm (s.speakers.filter (fun sp => 0 < sp.utteranceCount))
    (fun a b => decide (b.utteranceCount ≤ a.utteranceCount))).mem_iff.mp h
  have h3 := List.mem_filter.mp h2
  refine ⟨h3.1, ?_⟩
  simpa using h3.2

theorem recentSpeakersOf_mem {s : DiarState} {sp : SpeakerProfile}
    (h1 : sp ∈ s.speakers) (h2 : 0 < sp.utteranceCount) : sp ∈ recentSpeakersOf s := by
  unfold recentSpeakersOf
  rw [(List.mergeSort_perm _ _).mem_iff]
  exact List.mem_filter.mpr ⟨h1, by simpa using h2⟩

/-- `updateSpeakerProfile` never changes the roster's ids. -/
theorem updateSpeakerProfile_ids (s : DiarState) (speakerId : String)
    (audioFeatures : Option AudioFeatures) :
    (updateSpeakerProfile s speakerId audioFeatures).speakers.map SpeakerProfile.id
      = s.speakers.map SpeakerProfile.id := by
  unfold updateSpeakerProfile
  cases audioFeatures with
  | none => rfl
  | some af =>
      simp only [List.map_map]
      refine List.map_congr_left ?_
      intro sp _
      by_cases h : sp.id = speakerId <;> simp [h]

/-- `updateSpeakerProfile` never changes the configuration or the next
speaker index. -/
theorem updateSpeakerProfile_config (s : DiarState) (speakerId : String)
    (audioFeatures : Option AudioFeatures) :
    (updateSpeakerProfile s speakerId audioFeatures).config = s.config ∧
    (updateSpeakerProfile s speakerId audioFeatures).nextSpeakerIndex = s.nextSpeakerIndex := by
  unfold updateSpeakerProfile
  cases audioFeatures <;> exact ⟨rfl, rfl⟩

end Diarization

namespace Diarization

/-- Updating keeps every utterance count at least one. -/
theorem updateSpeakerProfile_counts (s : DiarState) (speakerId : String)
    (audioFeatures : Option AudioFeatures)
    (h : ∀ q ∈ s.speakers, 1 ≤ q.utteranceCount) :
    ∀ q ∈ (updateSpeakerProfile s speakerId audioFeatures).speakers, 1 ≤ q.utteranceCount := by
  unfold updateSpeakerProfile
  cases audioFeatures with
  | none => exact h
  | some af =>
      intro q hq
      simp only [List.mem_map] at hq
      rcases hq with ⟨sp, hsp, hq⟩
      by_cases hid : sp.id = speakerId
      · rw [← hq]
        simp [hid]
      · rw [← hq]
        simp only [hid, if_false]
        exact h sp hsp

theorem acousticMatch_none (s : DiarState) (r : List SpeakerProfile) :
    acousticMatch s r none = none := rfl

theorem acousticMatch_empty (s : DiarState) (af : AudioFeatures) :
    acousticMatch s [] (some af) = none := by
  simp only [acousticMatch]
  rw [if_neg (by norm_num)]

theorem acousticMatch_fold_none (s : DiarState) (r : List SpeakerProfile)
    (af : AudioFeatures) (sc : ℚ) (hfold : bestMatchFold af r = (none, sc)) :
    acousticMatch s r (some af) = none := by
  simp only [acousticMatch]
  by_cases hlen : r.length > 0
  · rw [if_pos hlen, hfold]
  · rw [if_neg hlen]

/-- The timing-gap branch never fires: the stubbed gap is 1000 ms < 2000 ms. -/
theorem timingSwitch_none (s : DiarState) (r : List SpeakerProfile)
    (f : Option AudioFeatures) : timingSwitch s r f = none := by
  unfold timingSwitch
  rw [if_neg]
  norm_num [getTimeSinceLastUtterance]

/-- Exit computation: an accepted acoustic best match. -/
theorem simpleIdentification_eq_matched (s : DiarState) (e : TranscriptEntry)
    (af : AudioFeatures) (b : SpeakerProfile) (sc : ℚ)
    (hlen : (recentSpeakersOf s).length > 0)
    (hfold : bestMatchFold af (recentSpeakersOf s) = (some b, sc)) :
    simpleIdentification s e (some af)
      = ({ speakerId := b.id, speakerName := b.name, confidence := sc },
         updateSpeakerProfile s b.id (some af)) := by
  unfold simpleIdentification
  dsimp only
  have hm : acousticMatch s (recentSpeakersOf s) (some af)
      = some ({ speakerId := b.id, speakerName := b.name, confidence := sc },
              updateSpeakerProfile s b.id (some af)) := by
    simp only [acousticMatch]
    rw [if_pos hlen, hfold]
  rw [hm]

/-- Exit computation: an empty roster always creates the first profile. -/
theorem simpleIdentification_eq_create (s : DiarState) (e : TranscriptEntry)
    (f : Option AudioFeatures) (hs : s.speakers = []) :
    simpleIdentification s e f
      = ({ speakerId := (createNewSpeaker s f).1.id,
           speakerName := (createNewSpeaker s f).1.name, confidence := 3 / 5 },
         (createNewSpeaker s f).2) := by
  have hr : recentSpeakersOf s = [] := by
    unfold recentSpeakersOf
    rw [hs]
    simp [List.mergeSort_nil]
  unfold simpleIdentification
  dsimp only
  rw [hr]
  have hm : acousticMatch s [] f = none := by
    cases f with
    | none => exact acousticMatch_none s []
    | some af => exact acousticMatch_empty s af
  rw [hm, timingSwitch_none]
  simp only [rosterFallback]
  rw [if_pos (Or.inl (by rw [hs]; rfl))]

/-- Exit computation: with a one-profile roster and no accepted match, the
default "most recent speaker" branch answers. -/
theorem simpleIdentification_eq_default (s : DiarState) (e : TranscriptEntry)
    (f : Option AudioFeatures) (p : SpeakerProfile)
    (hr : recentSpeakersOf s = [p])
    (hNoMatch : ∀ af, f = some af → (bestMatchFold af [p]).1 = none)
    (hs : s.speakers.length ≠ 0) :
    simpleIdentification s e f
      = ({ speakerId := p.id, speakerName := p.name, confidence := 1 / 2 },
         updateSpeakerProfile s p.id f) := by
  unfold simpleIdentification
  dsimp only
  rw [hr]
  have hm : acousticMatch s [p] f = none := by
    cases f with
    | none => exact acousticMatch_none s [p]
    | some af =>
        have h := hNoMatch af rfl
        rcases hfold : bestMatchFold af [p] with ⟨ob, sc⟩
        rw [hfold] at h
        cases ob with
        | some b => exact absurd h (by simp)
        | none => exact acousticMatch_fold_none s [p] af sc hfold
  rw [hm, timingSwitch_none]
  simp only [rosterFallback]
  have hguard : ¬ (s.speakers.length = 0 ∨
      (getTimeSinceLastUtterance > 2000 ∧
        s.speakers.length < maxSpeakersOrDefault s.config)) := by
    push_neg
    refine ⟨hs, ?_⟩
    intro h
    exact absurd h (by norm_num [getTimeSinceLastUtterance])
  rw [if_neg hguard]
  rfl

end Diarization

namespace Diarization

theorem map_eq_singleton {α β : Type} (f : α → β) {l : List α} {a : β}
    (h : l.map f = [a]) : ∃ x, l = [x] ∧ f x = a := by
  cases l with
  | nil => exact absurd h (by simp)
  | cons x t =>
      rw [List.map_cons] at h
      have h1 := List.cons.injEq (f x) (t.map f) a [] ▸ h
      rw [List.cons.injEq] at h
      exact ⟨x, by rw [List.map_eq_nil_iff.mp h.2], h.1⟩

theorem recentSpeakersOf_singleton (s : DiarState) (p : SpeakerProfile)
    (hs : s.speakers = [p]) (hc : 1 ≤ p.utteranceCount) : recentSpeakersOf s = [p] := by
  unfold recentSpeakersOf
  rw [hs]
  have hf : List.filter (fun sp => decide (0 < sp.utteranceCount)) [p] = [p] := by
    simp [show 0 < p.utteranceCount from hc]
  rw [hf, List.mergeSort_singleton]

/-- On a one-profile roster, attribution always answers with that profile and
leaves the roster's ids, the configuration and the speaker index unchanged,
keeping every utterance count positive. -/
theorem simpleIdentification_singleton (s : DiarState) (e : TranscriptEntry)
    (f : Option AudioFeatures) (p : SpeakerProfile)
    (hs : s.speakers = [p]) (hc : 1 ≤ p.utteranceCount) :
    (simpleIdentification s e f).1.speakerId = p.id ∧
    (simpleIdentification s e f).2.speakers.map SpeakerProfile.id
      = s.speakers.map SpeakerProfile.id ∧
    (simpleIdentification s e f).2.config = s.config ∧
    (simpleIdentification s e f).2.nextSpeakerIndex = s.nextSpeakerIndex ∧
    (∀ q ∈ (simpleIdentification s e f).2.speakers, 1 ≤ q.utteranceCount) := by
  have hr := recentSpeakersOf_singleton s p hs hc
  have hcounts : ∀ q ∈ s.speakers, 1 ≤ q.utteranceCount := by
    intro q hq
    rw [hs, List.mem_singleton] at hq
    rw [hq]
    exact hc
  have hdefault : ∀ (hN : ∀ af, f = some af → (bestMatchFold af [p]).1 = none),
      (simpleIdentification s e f).1.speakerId = p.id ∧
      (simpleIdentification s e f).2.speakers.map SpeakerProfile.id
        = s.speakers.map SpeakerProfile.id ∧
      (simpleIdentification s e f).2.config = s.config ∧
      (simpleIdentification s e f).2.nextSpeakerIndex = s.nextSpeakerIndex ∧
      (∀ q ∈ (simpleIdentification s e f).2.speakers, 1 ≤ q.utteranceCount) := by
    intro hN
    rw [simpleIdentification_eq_default s e f p hr hN (by rw [hs]; norm_num)]
    exact ⟨rfl, updateSpeakerProfile_ids s p.id f,
      (updateSpeakerProfile_config s p.id f).1,
      (updateSpeakerProfile_config s p.id f).2,
      updateSpeakerProfile_counts s p.id f hcounts⟩
  cases f with
  | none =>
      exact hdefault (fun af h => absurd h (by simp))
  | some af =>
      rcases hfold : bestMatchFold af [p] with ⟨ob, sc⟩
      cases ob with
      | none =>
          refine hdefault (fun af' h => ?_)
          cases h
          rw [hfold]
      | some b =>
          have hb : b = p := by
            rcases foldl_bestMatchStep_shape af [p] (none, 0) with hsh | ⟨b', hb', hsh, _⟩
            · rw [← bestMatchFold_eq_foldl] at hsh
              rw [hfold] at hsh
              exact absurd (congrArg Prod.fst hsh) (by simp)
            · rw [← bestMatchFold_eq_foldl] at hsh
              rw [hfold] at hsh
              have := congrArg Prod.fst hsh
              simp only [List.mem_singleton] at hb'
              simp at this
              rw [this, hb']
          subst hb
          rw [simpleIdentification_eq_matched s e af b sc (by rw [hr]; norm_num)
            (by rw [hr]; exact hfold)]
          exact ⟨rfl, updateSpeakerProfile_ids s b.id (some af),
            (updateSpeakerProfile_config s b.id (some af)).1,
            (updateSpeakerProfile_config s b.id (some af)).2,
            updateSpeakerProfile_counts s b.id (some af) hcounts⟩

theorem identifySpeaker_unconfigured (s : DiarState) (e : TranscriptEntry)
    (f : Option AudioFeatures) (h : s.config = none) :
    identifySpeaker s e f
      = ({ speakerId := "speaker-1", speakerName := "Speaker 1", confidence := 1 / 2 }, s) := by
  simp [identifySpeaker, h]

theorem identifySpeaker_simple (s : DiarState) (e : TranscriptEntry)
    (f : Option AudioFeatures) (cfg : DiarizationConfig)
    (h : s.config = some cfg) (hm : cfg.method = DiarMethod.simple) :
    identifySpeaker s e f = simpleIdentification s e f := by
  simp [identifySpeaker, h, hm]

theorem identifySpeaker_assemblyai (s : DiarState) (e : TranscriptEntry)
    (f : Option AudioFeatures) (cfg : DiarizationConfig)
    (h : s.config = some cfg) (hm : cfg.method = DiarMethod.assemblyai) :
    identifySpeaker s e f
      = ({ speakerId := "speaker-1", speakerName := "Speaker 1", confidence := 4 / 5 }, s) := by
  simp [identifySpeaker, h, hm]

theorem identifySpeaker_pyannote (s : DiarState) (e : TranscriptEntry)
    (f : Option AudioFeatures) (cfg : DiarizationConfig)
    (h : s.config = some cfg) (hm : cfg.method = DiarMethod.pyannote) :
    identifySpeaker s e f
      = ({ speakerId := "speaker-1", speakerName := "Speaker 1", confidence := 1 / 2 }, s) := by
  simp [identifySpeaker, h, hm]

/-- The roster invariant of the attribution service: the next speaker index
counts the roster, and the roster is empty or the single profile
`speaker-1` with a positive utterance count (the timing gap never fires, so
`createNewSpeaker` only ever runs on an empty roster). -/
def diarInv (s : DiarState) : Prop :=
  s.nextSpeakerIndex = s.speakers.length ∧
  (s.speakers = [] ∨
    ∃ p, s.speakers = [p] ∧ p.id = "speaker-1" ∧ 1 ≤ p.utteranceCount)

theorem dreachable_inv {s : DiarState} (h : DReachable s) : diarInv s := by
  induction h with
  | init => exact ⟨rfl, Or.inl rfl⟩
  | step e _ ih =>
      rename_i s' _
      cases e with
      | configure cfg => exact ⟨ih.1, ih.2⟩
      | reset => exact ⟨rfl, Or.inl rfl⟩
      | rename speakerId name =>
          refine ⟨by simpa [dstep, updateSpeakerName] using ih.1, ?_⟩
          rcases ih.2 with hemp | ⟨p, hp, hid, hcnt⟩
          · left
            simp [dstep, updateSpeakerName, hemp]
          · right
            refine ⟨if p.id = speakerId then { p with name := name } else p, ?_, ?_, ?_⟩
            · simp [dstep, updateSpeakerName, hp]
            · have h1 : (if p.id = speakerId then { p with name := name } else p).id
                  = p.id := by split <;> rfl
              rw [h1]
              exact hid
            · have h2 : (if p.id = speakerId then { p with name := name }
                  else p).utteranceCount = p.utteranceCount := by split <;> rfl
              rw [h2]
              exact hcnt
      | identify entry f =>
          show diarInv (identifySpeaker s' entry f).2
          rcases hcfg : s'.config with _ | cfg
          · rw [identifySpeaker_unconfigured s' entry f hcfg]
            exact ih
          · cases hm : cfg.method with
            | assemblyai =>
                rw [identifySpeaker_assemblyai s' entry f cfg hcfg hm]
                exact ih
            | pyannote =>
                rw [identifySpeaker_pyannote s' entry f cfg hcfg hm]
                exact ih
            | simple =>
                rw [identifySpeaker_simple s' entry f cfg hcfg hm]
                rcases ih.2 with hemp | ⟨p, hp, hid, hcnt⟩
                · rw [simpleIdentification_eq_create s' entry f hemp]
                  have hn : s'.nextSpeakerIndex = 0 := by
                    rw [ih.1, hemp]
                    rfl
                  constructor
                  · show (createNewSpeaker s' f).2.nextSpeakerIndex
                      = (createNewSpeaker s' f).2.speakers.length
                    unfold createNewSpeaker
                    simp [hemp, hn]
                  · right
                    refine ⟨(createNewSpeaker s' f).1, ?_, ?_, ?_⟩
                    · show (createNewSpeaker s' f).2.speakers = [(createNewSpeaker s' f).1]
                      unfold createNewSpeaker
                      simp [hemp]
                    · show (createNewSpeaker s' f).1.id = "speaker-1"
                      unfold createNewSpeaker
                      rw [hn]
                      rfl
                    · show 1 ≤ (createNewSpeaker s' f).1.utteranceCount
                      unfold createNewSpeaker
                      exact le_refl 1
                · have hsing := simpleIdentification_singleton s' entry f p hp hcnt
                  have hids := hsing.2.1
                  rw [hp] at hids
                  rcases map_eq_singleton SpeakerProfile.id hids with ⟨p', hp', hid'⟩
                  constructor
                  · rw [hsing.2.2.2.1, ih.1, hp, hp']
                    rfl
                  · right
                    refine ⟨p', hp', by rw [hid', hid], ?_⟩
                    exact hsing.2.2.2.2 p' (by rw [hp']; exact List.mem_singleton.mpr rfl)

theorem one_le_maxSpeakersOrDefault (config : Option DiarizationConfig) :
    1 ≤ maxSpeakersOrDefault config := by
  cases config with
  | none => norm_num [maxSpeakersOrDefault]
  | some c =>
      cases hms : c.maxSpeakers with
      | none => simp [maxSpeakersOrDefault, hms]
      | some m =>
          simp only [maxSpeakersOrDefault, hms]
          split <;> omega

end Diarization

/-- Claim C5: across every sequence of service calls, the speaker roster
never exceeds the configured maximum (default 4), and once the roster has
reached that maximum, attribution never creates a new profile: it leaves the
roster's ids unchanged and resolves to an existing profile. -/
theorem roster_capped :
    ∀ s : Diarization.DiarState, Diarization.DReachable s →
      s.speakers.length ≤ Diarization.maxSpeakersOrDefault s.config ∧
      (Diarization.maxSpeakersOrDefault s.config ≤ s.speakers.length →
        ∀ (e : TranscriptEntry) (f : Option Diarization.AudioFeatures),
          (Diarization.identifySpeaker s e f).2.speakers.map Diarization.SpeakerProfile.id
              = s.speakers.map Diarization.SpeakerProfile.id ∧
            (Diarization.identifySpeaker s e f).1.speakerId
              ∈ s.speakers.map Diarization.SpeakerProfile.id) := by
  intro s hr
  have inv := Diarization.dreachable_inv hr
  have hlen1 : s.speakers.length ≤ 1 := by
    rcases inv.2 with h | ⟨p, hp, _, _⟩
    · rw [h]; norm_num
    · rw [hp]; norm_num
  constructor
  · exact le_trans hlen1 (Diarization.one_le_maxSpeakersOrDefault _)
  · intro hmax e f
    have h1 : 1 ≤ s.speakers.length :=
      le_trans (Diarization.one_le_maxSpeakersOrDefault _) hmax
    rcases inv.2 with hemp | ⟨p, hp, hid, hcnt⟩
    · rw [hemp] at h1
      norm_num at h1
    · rcases hcfg : s.config with _ | cfg
      · rw [Diarization.identifySpeaker_unconfigured s e f hcfg]
        exact ⟨rfl, by rw [hp]; simp [hid]⟩
      · cases hm : cfg.method with
        | assemblyai =>
            rw [Diarization.identifySpeaker_assemblyai s e f cfg hcfg hm]
            exact ⟨rfl, by rw [hp]; simp [hid]⟩
        | pyannote =>
            rw [Diarization.identifySpeaker_pyannote s e f cfg hcfg hm]
            exact ⟨rfl, by rw [hp]; simp [hid]⟩
        | simple =>
            rw [Diarization.identifySpeaker_simple s e f cfg hcfg hm]
            have hs := Diarization.simpleIdentification_singleton s e f p hp hcnt
            refine ⟨hs.2.1, ?_⟩
            rw [hs.1, hp]
            simp

/-- A configuration capping the roster at one speaker. -/
def cfgMax1 : Diarization.DiarizationConfig :=
  { maxSpeakers := some 1, method := Diarization.DiarMethod.simple }

/-- A sample transcript entry. -/
def sampleEntry : TranscriptEntry :=
  { id := "t1", meetingId := "m1", speakerId := "", speakerName := "",
    text := "hello world", timestamp := 0, endTimestamp := 1000, confidence := 1,
    language := "en", createdAt := 0 }

/-- A reachable state whose roster has reached the configured maximum. -/
def cappedState : Diarization.DiarState :=
  Diarization.dstep
    (Diarization.dstep Diarization.initialDiarState (Diarization.DEvent.configure cfgMax1))
    (Diarization.DEvent.identify sampleEntry none)

/-- Witness for `roster_capped`: with `maxSpeakers := 1` and one identified
speaker the roster is at its maximum, and a further attribution resolves to
the existing profile without creating a new one. -/
theorem roster_capped_witness :
    Diarization.DReachable cappedState ∧
    Diarization.maxSpeakersOrDefault cappedState.config ≤ cappedState.speakers.length ∧
    ((Diarization.identifySpeaker cappedState sampleEntry none).2.speakers.map
        Diarization.SpeakerProfile.id
        = cappedState.speakers.map Diarization.SpeakerProfile.id ∧
      (Diarization.identifySpeaker cappedState sampleEntry none).1.speakerId
        ∈ cappedState.speakers.map Diarization.SpeakerProfile.id) := by
  have hreach : Diarization.DReachable cappedState :=
    Diarization.DReachable.step _ (Diarization.DReachable.step _ Diarization.DReachable.init)
  have hmax : Diarization.maxSpeakersOrDefault cappedState.config
      ≤ cappedState.speakers.length := by decide
  exact ⟨hreach, hmax, (roster_capped cappedState hreach).2 hmax sampleEntry none⟩

/-- Claim C6: on a non-empty roster, attribution on features exactly equal to
an existing profile's running averages scores `1 / (1 + 0 + 0) = 1 > 3/5`,
so that profile is matched (confidence 1) and updated — its utterance count
grows by one — and no new profile is created. -/
theorem exact_match_attribution (s : Diarization.DiarState)
    (cfg : Diarization.DiarizationConfig) (e : TranscriptEntry)
    (af : Diarization.AudioFeatures) (p : Diarization.SpeakerProfile)
    (hcfg : s.config = some cfg) (hm : cfg.method = Diarization.DiarMethod.simple)
    (hp : p ∈ s.speakers) (hcnt : 0 < p.utteranceCount)
    (hpitch : p.avgPitch = af.pitch) (henergy : p.avgEnergy = af.energy)
    (huniq : ∀ q ∈ s.speakers, 0 < q.utteranceCount → q.avgPitch = af.pitch →
      q.avgEnergy = af.energy → q = p) :
    (Diarization.identifySpeaker s e (some af)).1.speakerId = p.id ∧
    (Diarization.identifySpeaker s e (some af)).1.confidence = 1 ∧
    ((1 : ℚ) > 3 / 5) ∧
    (Diarization.identifySpeaker s e (some af)).2.speakers.map Diarization.SpeakerProfile.id
      = s.speakers.map Diarization.SpeakerProfile.id ∧
    ∃ q ∈ (Diarization.identifySpeaker s e (some af)).2.speakers,
      q.id = p.id ∧ q.utteranceCount = p.utteranceCount + 1 := by
  rw [Diarization.identifySpeaker_simple s e (some af) cfg hcfg hm]
  have hpr : p ∈ Diarization.recentSpeakersOf s := Diarization.recentSpeakersOf_mem hp hcnt
  have hlen : (Diarization.recentSpeakersOf s).length > 0 :=
    List.length_pos.mpr (List.ne_nil_of_mem hpr)
  have hsone : Diarization.similarityScore af p = 1 :=
    (Diarization.similarityScore_eq_one_iff af p).mpr ⟨hpitch, henergy⟩
  have hfold2 : (Diarization.bestMatchFold af (Diarization.recentSpeakersOf s)).2 = 1 := by
    rw [Diarization.bestMatchFold_eq_foldl]
    exact Diarization.foldl_bestMatchStep_score_one af _ (none, 0) (by norm_num)
      ⟨p, hpr, hsone⟩
  rcases Diarization.foldl_bestMatchStep_shape af (Diarization.recentSpeakersOf s) (none, 0)
    with hsh | ⟨b, hbmem, hsh, hbs⟩
  · rw [← Diarization.bestMatchFold_eq_foldl] at hsh
    rw [hsh] at hfold2
    norm_num at hfold2
  · rw [← Diarization.bestMatchFold_eq_foldl] at hsh
    have hscb : Diarization.similarityScore af b = 1 := by
      have h2 := congrArg Prod.snd hsh
      rw [hfold2] at h2
      exact h2.symm
    have hbmem' := Diarization.mem_recentSpeakersOf hbmem
    have hbpe := (Diarization.similarityScore_eq_one_iff af b).mp hscb
    have hbp : b = p := huniq b hbmem'.1 hbmem'.2 hbpe.1 hbpe.2
    subst hbp
    rw [Diarization.simpleIdentification_eq_matched s e af b
      (Diarization.similarityScore af b) hlen hsh]
    refine ⟨rfl, hscb, by norm_num,
      Diarization.updateSpeakerProfile_ids s b.id (some af), ?_⟩
    simp only [Diarization.updateSpeakerProfile]
    refine ⟨_, List.mem_map_of_mem _ hp, ?_, ?_⟩ <;> simp

/-- The one-profile roster whose averages are exactly the probe features. -/
def matchProfile : Diarization.SpeakerProfile :=
  { id := "speaker-1", name := "Speaker 1", color := "#3b82f6",
    avgPitch := 150, avgEnergy := 1 / 2, speakingRate := 3, utteranceCount := 1 }

def matchState : Diarization.DiarState :=
  { config := some { method := Diarization.DiarMethod.simple },
    speakers := [matchProfile], nextSpeakerIndex := 1 }

def matchFeatures : Diarization.AudioFeatures :=
  { pitch := 150, energy := 1 / 2, duration := 1000 }

/-- Witness for `exact_match_attribution`: probing the one-speaker roster with
its own averages matches `speaker-1` with confidence 1 and bumps its count. -/
theorem exact_match_attribution_witness :
    (Diarization.identifySpeaker matchState sampleEntry (some matchFeatures)).1.speakerId
        = "speaker-1" ∧
    (Diarization.identifySpeaker matchState sampleEntry (some matchFeatures)).1.confidence
        = 1 ∧
    ∃ q ∈ (Diarization.identifySpeaker matchState sampleEntry
        (some matchFeatures)).2.speakers, q.id = "speaker-1" ∧ q.utteranceCount = 2 := by
  have h := exact_match_attribution matchState { method := Diarization.DiarMethod.simple }
    sampleEntry matchFeatures matchProfile rfl rfl (List.mem_singleton.mpr rfl)
    (by norm_num [matchProfile]) rfl rfl
    (fun q hq _ _ _ => List.mem_singleton.mp hq)
  exact ⟨h.1, h.2.1, h.2.2.2.2⟩

namespace Diarization

theorem createNewSpeaker_mem (s : DiarState) (f : Option AudioFeatures) :
    (createNewSpeaker s f).1 ∈ (createNewSpeaker s f).2.speakers := by
  unfold createNewSpeaker
  simp

/-- Inversion of a successful acoustic match. -/
theorem acousticMatch_inv (s : DiarState) (rs : List SpeakerProfile)
    (f : Option AudioFeatures) (r : IdResult) (s₂ : DiarState)
    (h : acousticMatch s rs f = some (r, s₂)) :
    ∃ af b, f = some af ∧ b ∈ rs ∧ r.speakerId = b.id ∧
      r.confidence = similarityScore af b ∧ similarityScore af b > 3 / 5 ∧
      s₂ = updateSpeakerProfile s b.id f := by
  cases f with
  | none => exact absurd h (by simp [acousticMatch])
  | some af =>
      simp only [acousticMatch] at h
      by_cases hlen : rs.length > 0
      · rw [if_pos hlen] at h
        rcases hfold : bestMatchFold af rs with ⟨ob, sc⟩
        rw [hfold] at h
        cases ob with
        | none => exact absurd h (by simp)
        | some b =>
            simp only [Option.some.injEq, Prod.mk.injEq] at h
            rcases foldl_bestMatchStep_shape af rs (none, 0) with hsh | ⟨b', hb', hsh, hgt⟩
            · rw [← bestMatchFold_eq_foldl, hfold] at hsh
              exact absurd (congrArg Prod.fst hsh) (by simp)
            · rw [← bestMatchFold_eq_foldl, hfold] at hsh
              rw [Prod.mk.injEq, Option.some.injEq] at hsh
              refine ⟨af, b, rfl, ?_, ?_, ?_, ?_, ?_⟩
              · rw [hsh.1]
                exact hb'
              · rw [← h.1]
              · rw [← h.1, hsh.2, hsh.1]
              · rw [hsh.1]
                exact hgt
              · rw [← h.2]
      · rw [if_neg hlen] at h
        exact absurd h (by simp)

/-- Every exit of the fallback tail answers with a positive confidence at
most one and an id present in the resulting roster. -/
theorem rosterFallback_total (s : DiarState) (f : Option AudioFeatures) :
    0 < (rosterFallback s (recentSpeakersOf s) f).1.confidence ∧
    (rosterFallback s (recentSpeakersOf s) f).1.confidence ≤ 1 ∧
    (rosterFallback s (recentSpeakersOf s) f).1.speakerId ∈
      (rosterFallback s (recentSpeakersOf s) f).2.speakers.map SpeakerProfile.id := by
  unfold rosterFallback
  split
  · rcases hcr : createNewSpeaker s f with ⟨ns, s1⟩
    have hmem := createNewSpeaker_mem s f
    rw [hcr] at hmem
    refine ⟨by norm_num, by norm_num, ?_⟩
    simpa using List.mem_map_of_mem SpeakerProfile.id hmem
  · rcases hh : (recentSpeakersOf s).head? with _ | d
    · rcases hcr : createNewSpeaker s f with ⟨ns, s1⟩
      have hmem := createNewSpeaker_mem s f
      rw [hcr] at hmem
      refine ⟨by norm_num, by norm_num, ?_⟩
      have hids := updateSpeakerProfile_ids s1 ns.id f
      simpa [hids] using List.mem_map_of_mem SpeakerProfile.id hmem
    · refine ⟨by norm_num, by norm_num, ?_⟩
      have hd : d ∈ recentSpeakersOf s := List.mem_of_mem_head? hh
      have hids := updateSpeakerProfile_ids s d.id f
      simpa [hids] using List.mem_map_of_mem SpeakerProfile.id (mem_recentSpeakersOf hd).1

/-- `simpleIdentification` always answers with a positive confidence at most
one and an id present in the resulting roster. -/
theorem simpleIdentification_total (s : DiarState) (e : TranscriptEntry)
    (f : Option AudioFeatures) :
    0 < (simpleIdentification s e f).1.confidence ∧
    (simpleIdentification s e f).1.confidence ≤ 1 ∧
    (simpleIdentification s e f).1.speakerId ∈
      (simpleIdentification s e f).2.speakers.map SpeakerProfile.id := by
  unfold simpleIdentification
  dsimp only
  rcases ham : acousticMatch s (recentSpeakersOf s) f with _ | ⟨r, s₂⟩
  · rw [timingSwitch_none]
    exact rosterFallback_total s f
  · rcases acousticMatch_inv s _ f r s₂ ham with ⟨af, b, hf, hb, hid, hconf, hgt, hs₂⟩
    refine ⟨?_, ?_, ?_⟩
    · show 0 < r.confidence
      rw [hconf]
      exact lt_trans (by norm_num) hgt
    · show r.confidence ≤ 1
      rw [hconf]
      exact similarityScore_le_one af b
    · show r.speakerId ∈ s₂.speakers.map SpeakerProfile.id
      rw [hid, hs₂, updateSpeakerProfile_ids]
      exact List.mem_map_of_mem _ (mem_recentSpeakersOf hb).1

end Diarization

/-- Claim C7: for every input — any entry, with or without audio features,
configured or not, roster empty or not — `identifySpeaker` returns a concrete
triple: a positive confidence at most one, and a speaker id that is either in
the resulting roster or the degraded `"speaker-1"` default. -/
theorem attribution_total :
    ∀ (s : Diarization.DiarState) (e : TranscriptEntry)
      (f : Option Diarization.AudioFeatures),
      0 < (Diarization.identifySpeaker s e f).1.confidence ∧
      (Diarization.identifySpeaker s e f).1.confidence ≤ 1 ∧
      ((Diarization.identifySpeaker s e f).1.speakerId ∈
          (Diarization.identifySpeaker s e f).2.speakers.map Diarization.SpeakerProfile.id ∨
        (Diarization.identifySpeaker s e f).1.speakerId = "speaker-1") := by
  intro s e f
  rcases hcfg : s.config with _ | cfg
  · rw [Diarization.identifySpeaker_unconfigured s e f hcfg]
    exact ⟨by norm_num, by norm_num, Or.inr rfl⟩
  · cases hm : cfg.method with
    | simple =>
        rw [Diarization.identifySpeaker_simple s e f cfg hcfg hm]
        have h := Diarization.simpleIdentification_total s e f
        exact ⟨h.1, h.2.1, Or.inl h.2.2⟩
    | assemblyai =>
        rw [Diarization.identifySpeaker_assemblyai s e f cfg hcfg hm]
        exact ⟨by norm_num, by norm_num, Or.inr rfl⟩
    | pyannote =>
        rw [Diarization.identifySpeaker_pyannote s e f cfg hcfg hm]
        exact ⟨by norm_num, by norm_num, Or.inr rfl⟩

namespace Diarization

/-- The zero-crossing count of `analyzeAudioFeatures` (a sign change between
consecutive samples, `>= 0` against `< 0`). -/
def countZeroCrossings : List ℚ → ℕ
  | a :: b :: rest =>
      (if (0 ≤ b ∧ a < 0) ∨ (b < 0 ∧ 0 ≤ a) then 1 else 0) + countZeroCrossings (b :: rest)
  | _ => 0

/-- The `{pitch, energy, duration}` triple of `analyzeAudioFeatures`; the
energy is real-valued because the source computes it with `Math.sqrt`. -/
structure AnalyzedFeatures where
  pitch : ℚ
  energy : ℝ
  duration : ℚ

/-- `analyzeAudioFeatures`: RMS energy (scaled by 10, capped at 1),
zero-crossing-rate pitch estimate clamped to `[50, 400]` Hz, and duration in
milliseconds. -/
noncomputable def analyzeAudioFeatures (audioData : List ℚ) (sampleRate : ℚ) :
    AnalyzedFeatures :=
  let sumSquares : ℚ := (audioData.map (fun x => x * x)).sum
  let energy : ℝ := Real.sqrt ((sumSquares : ℝ) / (audioData.length : ℝ))
  let zeroCrossings : ℕ := countZeroCrossings audioData
  let zcr : ℚ := (zeroCrossings : ℚ) / (audioData.length : ℚ)
  let estimatedPitch : ℚ := zcr * sampleRate / 2
  let duration : ℚ := (audioData.length : ℚ) / sampleRate * 1000
  { pitch := max 50 (min 400 estimatedPitch),
    energy := min 1 (energy * 10),
    duration := duration }

end Diarization

/-- Claim C10: on every non-empty sample list and positive sample rate,
`analyzeAudioFeatures` returns a pitch clamped to `[50, 400]` Hz, an energy
in `[0, 1]`, and a duration of exactly `sampleCount / sampleRate * 1000`
milliseconds. -/
theorem audio_features_ranges (audioData : List ℚ) (sampleRate : ℚ)
    (hne : audioData ≠ []) (hsr : 0 < sampleRate) :
    50 ≤ (Diarization.analyzeAudioFeatures audioData sampleRate).pitch ∧
    (Diarization.analyzeAudioFeatures audioData sampleRate).pitch ≤ 400 ∧
    (0 : ℝ) ≤ (Diarization.analyzeAudioFeatures audioData sampleRate).energy ∧
    (Diarization.analyzeAudioFeatures audioData sampleRate).energy ≤ 1 ∧
    (Diarization.analyzeAudioFeatures audioData sampleRate).duration
      = (audioData.length : ℚ) / sampleRate * 1000 := by
  unfold Diarization.analyzeAudioFeatures
  refine ⟨le_max_left _ _, ?_, ?_, ?_, rfl⟩
  · exact max_le (by norm_num) (min_le_left _ _)
  · refine le_min (by norm_num) ?_
    positivity
  · exact min_le_left _ _

/-- Witness for `audio_features_ranges` at the one-sample zero signal. -/
theorem audio_features_ranges_witness :
    ([(0 : ℚ)] ≠ []) ∧ (0 : ℚ) < 16000 ∧
    (50 ≤ (Diarization.analyzeAudioFeatures [0] 16000).pitch ∧
      (Diarization.analyzeAudioFeatures [0] 16000).pitch ≤ 400 ∧
      (0 : ℝ) ≤ (Diarization.analyzeAudioFeatures [0] 16000).energy ∧
      (Diarization.analyzeAudioFeatures [0] 16000).energy ≤ 1 ∧
      (Diarization.analyzeAudioFeatures [0] 16000).duration
        = (([(0 : ℚ)].length : ℚ)) / 16000 * 1000) :=
  ⟨by norm_num, by norm_num,
    audio_features_ranges [0] 16000 (by norm_num) (by norm_num)⟩

/-! ## JavaScript string and JSON primitives for the note generator -/

/-- The whitespace class of JavaScript `\s` and `String.prototype.trim`
(restricted to the code points the pipeline can produce: space, tab, LF, CR,
VT, FF, NBSP). -/
def jsIsWhitespace (c : Char) : Bool :=
  c = ' ' ∨ c = '\t' ∨ c = '\n' ∨ c = '\r' ∨ c = Char.ofNat 11 ∨ c = Char.ofNat 12 ∨
    c = Char.ofNat 160

/-- JavaScript `String.prototype.trim`. -/
def jsTrim (s : String) : String :=
  String.mk (((s.data.dropWhile jsIsWhitespace).reverse.dropWhile jsIsWhitespace).reverse)

/-- Maximal whitespace runs in a character list (the `inWs` flag remembers
whether the previous character was whitespace). -/
def wsRuns : Bool → List Char → ℕ
  | _, [] => 0
  | inWs, c :: rest =>
      if jsIsWhitespace c then (if inWs then 0 else 1) + wsRuns true rest
      else wsRuns false rest

/-- The length of JavaScript `text.split(/\s+/)`: one more than the number of
maximal whitespace runs (a leading or trailing run contributes an empty
piece, exactly as in JavaScript; the empty string splits to `[""]`). -/
def jsWordCount (s : String) : ℕ := wsRuns false s.data + 1

/-- Modelled from the spec (platform built-in): the JSON value tree produced
by `JSON.parse`.  Duplicate object keys are kept in parse order. -/
inductive Json where
  | null
  | bool (b : Bool)
  | num (q : ℚ)
  | str (s : String)
  | arr (items : List Json)
  | obj (fields : List (String × Json))
  deriving Repr

/-- `"` as a character. -/
def quoteChar : Char := Char.ofNat 34

/-- `\` as a character. -/
def backslashChar : Char := Char.ofNat 92

/-- Opening curly bracket as a character. -/
def lbraceChar : Char := Char.ofNat 123

/-- Closing curly bracket as a character. -/
def rbraceChar : Char := Char.ofNat 125

/-- JSON insignificant whitespace (space, tab, LF, CR). -/
def jsonWs (c : Char) : Bool := c = ' ' ∨ c = '\t' ∨ c = '\n' ∨ c = '\r'

def skipWs (cs : List Char) : List Char := cs.dropWhile jsonWs

def hexVal (c : Char) : Option ℕ :=
  if '0' ≤ c ∧ c ≤ '9' then some (c.toNat - 48)
  else if 'a' ≤ c ∧ c ≤ 'f' then some (c.toNat - 87)
  else if 'A' ≤ c ∧ c ≤ 'F' then some (c.toNat - 55)
  else none

def isDigitChar (c : Char) : Bool := '0' ≤ c ∧ c ≤ '9'

/-- Accumulate a run of decimal digits: value, digit count, rest. -/
def takeDigits : List Char → ℕ → ℕ → ℕ × ℕ × List Char
  | [], val, cnt => (val, cnt, [])
  | c :: rest, val, cnt =>
      if isDigitChar c then takeDigits rest (val * 10 + (c.toNat - 48)) (cnt + 1)
      else (val, cnt, c :: rest)

/-- Modelled from the spec (platform built-in): the body of a JSON string
after the opening quote, with the standard escapes.  (Control characters are
accepted unescaped and lone `\u` surrogates are kept as-is — none of the
verified inputs exercise either corner.) -/
def parseStringBody : ℕ → List Char → List Char → Option (String × List Char)
  | 0, _, _ => none
  | _ + 1, [], _ => none
  | fuel + 1, c :: rest, acc =>
      if c = quoteChar then some (String.mk acc.reverse, rest)
      else if c = backslashChar then
        match rest with
        | [] => none
        | e :: rest2 =>
            if e = quoteChar then parseStringBody fuel rest2 (quoteChar :: acc)
            else if e = backslashChar then parseStringBody fuel rest2 (backslashChar :: acc)
            else if e = '/' then parseStringBody fuel rest2 ('/' :: acc)
            else if e = 'b' then parseStringBody fuel rest2 (Char.ofNat 8 :: acc)
            else if e = 'f' then parseStringBody fuel rest2 (Char.ofNat 12 :: acc)
            else if e = 'n' then parseStringBody fuel rest2 ('\n' :: acc)
            else if e = 'r' then parseStringBody fuel rest2 ('\r' :: acc)
            else if e = 't' then parseStringBody fuel rest2 ('\t' :: acc)
            else if e = 'u' then
              match rest2 with
              | h1 :: h2 :: h3 :: h4 :: rest3 =>
                  match hexVal h1, hexVal h2, hexVal h3, hexVal h4 with
                  | some v1, some v2, some v3, some v4 =>
                      parseStringBody fuel rest3
                        (Char.ofNat (((v1 * 16 + v2) * 16 + v3) * 16 + v4) :: acc)
                  | _, _, _, _ => none
              | _ => none
            else none
      else parseStringBody fuel rest (c :: acc)

/-- Modelled from the spec (platform built-in): a JSON number per the JSON
grammar (`-? (0 | [1-9][0-9]*) (. digits)? ([eE] sign? digits)?`), as an
exact rational. -/
def parseNumber (cs : List Char) : Option (ℚ × List Char) :=
  let (neg, cs1) :=
    match cs with
    | c :: rest => if c = '-' then (true, rest) else (false, cs)
    | [] => (false, cs)
  match cs1 with
  | [] => none
  | c :: rest =>
      if ¬ isDigitChar c then none
      else
        let (ipart, cs2) :=
          if c = '0' then ((0 : ℕ), rest)
          else
            let (v, _, r) := takeDigits (c :: rest) 0 0
            (v, r)
        if c = '0' ∧ (match rest with | d :: _ => isDigitChar d | [] => false) = true then none
        else
          let (mant, scale, cs3) :=
            match cs2 with
            | '.' :: r2 =>
                let (fv, fc, r3) := takeDigits r2 0 0
                ((ipart : ℚ) + (fv : ℚ) / ((10 : ℚ) ^ fc), fc, if fc = 0 then [] else r3)
            | _ => ((ipart : ℚ), 0, cs2)
          if (match cs2 with | '.' :: r2 => decide ((takeDigits r2 0 0).2.1 = 0) | _ => false) = true then none
          else
            match cs3 with
            | c3 :: r3 =>
                if c3 = 'e' ∨ c3 = 'E' then
                  let (eneg, r4) :=
                    match r3 with
                    | s :: r5 =>
                        if s = '-' then (true, r5)
                        else if s = '+' then (false, r5)
                        else (false, r3)
                    | [] => (false, r3)
                  let (ev, ec, r6) := takeDigits r4 0 0
                  if ec = 0 then none
                  else
                    let base := if neg then -mant else mant
                    some (if eneg then base / ((10 : ℚ) ^ ev) else base * ((10 : ℚ) ^ ev), r6)
                else some ((if neg then -mant else mant), cs3)
            | [] => some ((if neg then -mant else mant), [])

mutual

/-- Modelled from the spec (platform built-in): recursive-descent
`JSON.parse` value parser, fuelled by the input length. -/
def parseValue : ℕ → List Char → Option (Json × List Char)
  | 0, _ => none
  | fuel + 1, cs =>
      match skipWs cs with
      | [] => none
      | c :: rest =>
          if c = quoteChar then
            match parseStringBody (rest.length + 1) rest [] with
            | some (s, r) => some (Json.str s, r)
            | none => none
          else if c = '[' then
            match skipWs rest with
            | ']' :: r2 => some (Json.arr [], r2)
            | r1 => parseArrayItems fuel r1 []
          else if c = lbraceChar then
            match skipWs rest with
            | r1 =>
                match r1 with
                | d :: r2 => if d = rbraceChar then some (Json.obj [], r2)
                    else parseObjectItems fuel r1 []
                | [] => none
          else if c = 't' then
            match rest with
            | 'r' :: 'u' :: 'e' :: r => some (Json.bool true, r)
            | _ => none
          else if c = 'f' then
            match rest with
            | 'a' :: 'l' :: 's' :: 'e' :: r => some (Json.bool false, r)
            | _ => none
          else if c = 'n' then
            match rest with
            | 'u' :: 'l' :: 'l' :: r => some (Json.null, r)
            | _ => none
          else
            match parseNumber (c :: rest) with
            | some (q, r) => some (Json.num q, r)
            | none => none

/-- Array elements after the first `[` (non-empty case). -/
def parseArrayItems : ℕ → List Char → List Json → Option (Json × List Char)
  | 0, _, _ => none
  | fuel + 1, cs, acc =>
      match parseValue fuel cs with
      | none => none
      | some (v, r) =>
          match skipWs r with
          | ',' :: r2 => parseArrayItems fuel r2 (v :: acc)
          | ']' :: r2 => some (Json.arr (v :: acc).reverse, r2)
          | _ => none

/-- Object members after the first curly bracket (non-empty case). -/
def parseObjectItems : ℕ → List Char → List (String × Json) → Option (Json × List Char)
  | 0, _, _ => none
  | fuel + 1, cs, acc =>
      match skipWs cs with
      | k :: rest =>
          if k = quoteChar then
            match parseStringBody (rest.length + 1) rest [] with
            | some (key, r) =>
                match skipWs r with
                | ':' :: r2 =>
                    match parseValue fuel r2 with
                    | some (v, r3) =>
                        match skipWs r3 with
                        | ',' :: r4 => parseObjectItems fuel r4 ((key, v) :: acc)
                        | d :: r4 =>
                            if d = rbraceChar then some (Json.obj ((key, v) :: acc).reverse, r4)
                            else none
                        | [] => none
                    | none => none
                | _ => none
            | none => none
          else none
      | [] => none

end

/-- Modelled from the spec (platform built-in): `JSON.parse` — parse one JSON
value and require only trailing whitespace. -/
def jparse (s : String) : Option Json :=
  match parseValue (s.data.length + 1) s.data with
  | some (v, rest) => if skipWs rest = [] then some v else none
  | none => none

/-! ## Live note generation service (`noteGeneration.ts`) -/

namespace Notes

/-- `NoteType` (`types/index.ts`). -/
inductive NoteType where
  | keyPoint
  | actionItem
  | decision
  | question
  | followUp
  | manual
  deriving DecidableEq, Repr

/-- `PendingNote` (`noteGeneration.ts`).  `content` and `assignee` are kept as
raw JSON values because the `item.content || ''` path can store non-string
values at runtime; the string path always stores `Json.str`. -/
structure PendingNote where
  type : NoteType
  content : Json
  confidence : ℚ
  sourceRefs : List String
  timestamp : ℕ
  assignee : Option Json := none
  deriving Repr

/-- `Note` (`types/index.ts`); `Date` values are epoch milliseconds and
`crypto.randomUUID()` is supplied externally. -/
structure Note where
  id : String
  meetingId : String
  type : NoteType
  content : Json
  timestamp : ℕ
  sourceRefs : List String
  assignee : Option Json := none
  deadline : Option ℕ := none
  completed : Bool
  createdAt : ℕ
  updatedAt : ℕ
  deriving Repr

/-- `NoteGenerationConfig` (only the fields `processTranscript` reads). -/
structure NoteGenConfig where
  minTranscriptLength : ℕ
  noteTypes : List NoteType
  deriving Repr

/-- The mutable fields of `NoteGenerationService` that `processTranscript`
touches. -/
structure NoteGenState where
  config : NoteGenConfig
  transcriptBuffer : List TranscriptEntry
  lastProcessedIndex : ℕ
  isProcessing : Bool
  deriving Repr

/-- JavaScript truthiness of a JSON value (`NaN` is not representable in the
tree, so number falsiness is exactly `0`). -/
def jsTruthy : Json → Bool
  | Json.null => false
  | Json.bool b => b
  | Json.num q => decide (q ≠ 0)
  | Json.str s => decide (s ≠ "")
  | Json.arr _ => true
  | Json.obj _ => true

def isNull : Json → Bool
  | Json.null => true
  | _ => false

/-- `typeof x === 'object'` — true for objects, arrays and `null`. -/
def jsTypeofObject : Json → Bool
  | Json.obj _ => true
  | Json.arr _ => true
  | Json.null => true
  | _ => false

/-- Property read on a parsed JSON value: `JSON.parse` keeps the last
duplicate key, and property access on a non-object yields `undefined`
(`none`).  Access on `null` throws; callers handle that case separately. -/
def jsProp (j : Json) (key : String) : Option Json :=
  match j with
  | Json.obj fields => (fields.filter (fun kv => kv.1 = key)).getLast?.map Prod.snd
  | _ => none

/-- Match length of the regex pattern of three backticks + `jso` + `n?` +
newline-or-nothing at the head of the input (`/.../g` first replace in
`parseNoteResponse`), `none` if it does not match here. -/
def fenceJsonLen (cs : List Char) : Option ℕ :=
  if "```jso".data.isPrefixOf cs then
    match cs.drop 6 with
    | 'n' :: '\n' :: _ => some 8
    | 'n' :: _ => some 7
    | '\n' :: _ => some 7
    | _ => some 6
  else none

/-- Match length of the regex pattern of three backticks + newline-or-nothing
(second replace in `parseNoteResponse`). -/
def fencePlainLen (cs : List Char) : Option ℕ :=
  if "```".data.isPrefixOf cs then
    match cs.drop 3 with
    | '\n' :: _ => some 4
    | _ => some 3
  else none

/-- `String.prototype.replace(/re/g, '')`: scan left to right, delete each
leftmost match, continue after it.  Fuelled by the input length (every match
here consumes at least one character). -/
def replaceAllWith (m : List Char → Option ℕ) : ℕ → List Char → List Char
  | 0, cs => cs
  | _ + 1, [] => []
  | fuel + 1, c :: rest =>
      match m (c :: rest) with
      | some n => replaceAllWith m fuel ((c :: rest).drop (max n 1))
      | none => c :: replaceAllWith m fuel rest

def runReplace (m : List Char → Option ℕ) (cs : List Char) : List Char :=
  replaceAllWith m cs.length cs

/-- The code-fence preprocessing at the top of `parseNoteResponse`: trim,
and if the result starts with three backticks, run both global replaces and
trim again. -/
def preprocessResponse (response : String) : String :=
  let t := jsTrim response
  if strStartsWith t "```" then
    jsTrim (String.mk (runReplace fencePlainLen (runReplace fenceJsonLen t.data)))
  else t

/-- True when the action-item object branch of `parseNoteResponse` is taken:
`noteType === 'action-item' && parsed.length > 0 && typeof parsed[0] === 'object'`. -/
def isActionObjResponse (noteType : NoteType) (items : List Json) : Bool :=
  decide (noteType = NoteType.actionItem) &&
    (match items.head? with
     | some h => jsTypeofObject h
     | none => false)

/-- One mapped action item: `item.content || ''`, `confidence: 0.8`,
`assignee: item.assignee || undefined`, `timestamp: Date.now()`. -/
def actionItemNote (now : ℕ) (noteType : NoteType) (item : Json) : PendingNote :=
  { type := noteType,
    content :=
      match jsProp item "content" with
      | some v => if jsTruthy v then v else Json.str ""
      | none => Json.str "",
    confidence := 4 / 5,
    sourceRefs := [],
    timestamp := now,
    assignee :=
      match jsProp item "assignee" with
      | some v => if jsTruthy v then some v else none
      | none => none }

/-- The simple string-array branch of `parseNoteResponse`: keep items that
are strings with non-empty trim, as trimmed contents. -/
def stringNotes (now : ℕ) (noteType : NoteType) (items : List Json) : List PendingNote :=
  items.filterMap (fun item =>
    match item with
    | Json.str s =>
        if 0 < (jsTrim s).length then
          some { type := noteType, content := Json.str (jsTrim s), confidence := 4 / 5,
                 sourceRefs := [], timestamp := now }
        else none
    | _ => none)

/-- `parseNoteResponse` (`noteGeneration.ts`): preprocess, `JSON.parse` in a
try/catch that yields `[]` on any throw, `[]` on non-arrays, then either the
action-item object mapping (where a `null` element throws a `TypeError` on
`item.content`, caught as `[]`) or the string filter. -/
def parseNoteResponse (now : ℕ) (response : String) (noteType : NoteType) :
    List PendingNote :=
  match jparse (preprocessResponse response) with
  | none => []
  | some j =>
      match j with
      | Json.arr items =>
          if isActionObjResponse noteType items then
            if items.any isNull then []
            else items.map (actionItemNote now noteType)
          else stringNotes now noteType items
      | _ => []

/-- `padStart(2, '0')`. -/
def pad2 (n : ℕ) : String :=
  let s := toString n
  String.mk (List.replicate (2 - s.length) '0') ++ s

/-- `formatTime`: milliseconds to `MM:SS`. -/
def formatTime (ms : ℕ) : String :=
  let totalSeconds := ms / 1000
  pad2 (totalSeconds / 60) ++ ":" ++ pad2 (totalSeconds % 60)

/-- The transcript context string built in `processTranscript`. -/
def contextOf (entries : List TranscriptEntry) : String :=
  String.intercalate "\n"
    (entries.map (fun e =>
      "[" ++ formatTime e.timestamp ++ "] " ++ e.speakerName ++ ": " ++ e.text))

/-- `buildPromptForNoteType` (the `prompts[noteType] || ''` lookup; every
key is present and only `'manual'` maps to the falsy `''`). -/
def buildPromptForNoteType (noteType : NoteType) (context : String) : String :=
  match noteType with
  | NoteType.keyPoint =>
      "Analyze this meeting transcript and extract key points discussed. Return ONLY a JSON array of strings, each being a concise key point (max 100 characters each). If no key points found, return empty array [].\n\nTranscript:\n"
        ++ context ++ "\n\nReturn format: [\"key point 1\", \"key point 2\", ...]"
  | NoteType.actionItem =>
      "Analyze this meeting transcript and extract action items. Return ONLY a JSON array of objects with format: [\x7b\"content\": \"action description\", \"assignee\": \"person name or null\"\x7d]. If no action items found, return empty array [].\n\nTranscript:\n"
        ++ context ++ "\n\nReturn format: [\x7b\"content\": \"...\", \"assignee\": \"...\"\x7d]"
  | NoteType.decision =>
      "Analyze this meeting transcript and extract decisions made. Return ONLY a JSON array of strings, each being a clear decision (max 150 characters each). If no decisions found, return empty array [].\n\nTranscript:\n"
        ++ context ++ "\n\nReturn format: [\"decision 1\", \"decision 2\", ...]"
  | NoteType.question =>
      "Analyze this meeting transcript and extract unresolved questions. Return ONLY a JSON array of strings, each being a question that needs follow-up. If no questions found, return empty array [].\n\nTranscript:\n"
        ++ context ++ "\n\nReturn format: [\"question 1?\", \"question 2?\", ...]"
  | NoteType.followUp =>
      "Analyze this meeting transcript and extract items that need follow-up. Return ONLY a JSON array of strings. If none found, return empty array [].\n\nTranscript:\n"
        ++ context ++ "\n\nReturn format: [\"follow-up 1\", \"follow-up 2\", ...]"
  | NoteType.manual => ""

/-- `generateNoteType`: build the prompt, call the provider (`ai`; `none`
models a thrown `sendMessage`, caught as `[]`), and record the one call
made. -/
def generateNoteType (ai : String → Option String) (now : ℕ) (noteType : NoteType)
    (context : String) : List PendingNote × List String :=
  let prompt := buildPromptForNoteType noteType context
  match ai prompt with
  | some response => (parseNoteResponse now response noteType, [prompt])
  | none => ([], [prompt])

/-- `pending` to `Note` conversion inside `generateNotesFromContext`
(`pending.timestamp || timestamp` with `0` falsy). -/
def pendingToNote (id : String) (meetingId : String) (timestamp now : ℕ)
    (p : PendingNote) : Note :=
  { id := id,
    meetingId := meetingId,
    type := p.type,
    content := p.content,
    timestamp := if p.timestamp = 0 then timestamp else p.timestamp,
    sourceRefs := p.sourceRefs,
    assignee := p.assignee,
    completed := false,
    createdAt := now,
    updatedAt := now }

/-- `generateNotesFromContext`: `meetingId` from the first entry (`|| ''`),
fallback timestamp from the last entry (`|| Date.now()`), then one
`generateNoteType` per configured type, accumulating notes (ids drawn from
`freshId` in emission order) and provider calls. -/
def generateNotesFromContext (ai : String → Option String) (freshId : ℕ → String)
    (now : ℕ) (noteTypes : List NoteType) (context : String)
    (entries : List TranscriptEntry) : List Note × List String :=
  let meetingId := ((entries.head?.map (fun e => e.meetingId)).getD "")
  let timestamp :=
    match entries.getLast? with
    | some e => if e.timestamp = 0 then now else e.timestamp
    | none => now
  noteTypes.foldl
    (fun acc noteType =>
      let r := generateNoteType ai now noteType context
      (acc.1 ++
        (List.range r.1.length).zipWith
          (fun i p => pendingToNote (freshId (acc.1.length + i)) meetingId timestamp now p)
          r.1,
       acc.2 ++ r.2))
    ([], [])

/-- `processTranscript` (`noteGeneration.ts`).  `ai` is
`aiChatService.sendMessage`, `aiConfigured` is `aiChatService.isConfigured()`,
`freshId` supplies `crypto.randomUUID()` values, `now` is `Date.now()`.
Returns the new state, the emitted notes, and the prompts sent to the
provider (one per AI call). -/
def processTranscript (aiConfigured : Bool) (ai : String → Option String)
    (freshId : ℕ → String) (now : ℕ) (s : NoteGenState) :
    NoteGenState × List Note × List String :=
  if s.isProcessing || !aiConfigured then (s, [], [])
  else
    if (s.transcriptBuffer.drop s.lastProcessedIndex).length = 0 then (s, [], [])
    else
      if (s.transcriptBuffer.drop s.lastProcessedIndex).foldl
          (fun count e => count + jsWordCount e.text) 0 < s.config.minTranscriptLength then
        (s, [], [])
      else
        let newEntries := s.transcriptBuffer.drop s.lastProcessedIndex
        let r := generateNotesFromContext ai freshId now s.config.noteTypes
          (contextOf newEntries) newEntries
        ({ s with lastProcessedIndex := s.transcriptBuffer.length, isProcessing := false },
         r.1, r.2)

end Notes

/-- C8: `parseNoteResponse` returns the empty note list for the bare empty
array, for the code-fenced empty array (the fence is stripped first), and
for non-JSON input; more generally every response whose preprocessed form
fails `JSON.parse` or parses to a non-array yields the empty list instead of
an error. -/
theorem note_parse_robust :
    Notes.preprocessResponse "```json\n[]\n```" = "[]" ∧
    (∀ nt now, Notes.parseNoteResponse now "[]" nt = []) ∧
    (∀ nt now, Notes.parseNoteResponse now "```json\n[]\n```" nt = []) ∧
    (∀ nt now, Notes.parseNoteResponse now "not json" nt = []) ∧
    (∀ nt now response,
      (jparse (Notes.preprocessResponse response) = none ∨
        ∃ j, jparse (Notes.preprocessResponse response) = some j ∧
          ∀ items, j ≠ Json.arr items) →
      Notes.parseNoteResponse now response nt = []) := by
  refine ⟨rfl, ?_, ?_, ?_, ?_⟩
  · intro nt now; cases nt <;> rfl
  · intro nt now; cases nt <;> rfl
  · intro nt now; cases nt <;> rfl
  · intro nt now response h
    unfold Notes.parseNoteResponse
    rcases h with h | ⟨j, hj, hna⟩
    · rw [h]
    · rw [hj]
      cases j with
      | arr items => exact absurd rfl (hna items)
      | null => rfl
      | bool b => rfl
      | num q => rfl
      | str s => rfl
      | obj fields => rfl

/-- Closed instance of the general malformed-response clause of
`note_parse_robust`. -/
theorem note_parse_robust_witness :
    Notes.parseNoteResponse 3 "oops" Notes.NoteType.decision = [] :=
  note_parse_robust.2.2.2.2 Notes.NoteType.decision 3 "oops" (Or.inl rfl)

/-- A transcript entry adding only two words. -/
def noteEntry1 : TranscriptEntry :=
  { id := "t-1", meetingId := "m-1", speakerId := "speaker-1",
    speakerName := "Speaker 1", text := "hello world", timestamp := 0,
    endTimestamp := 0, confidence := 1, language := "en", createdAt := 0 }

/-- A note-generation state whose unprocessed entries hold fewer than the
configured minimum of 50 words. -/
def noteSkipState : Notes.NoteGenState :=
  { config :=
      { minTranscriptLength := 50,
        noteTypes :=
          [Notes.NoteType.keyPoint, Notes.NoteType.actionItem,
           Notes.NoteType.decision, Notes.NoteType.question] },
    transcriptBuffer := [noteEntry1],
    lastProcessedIndex := 0,
    isProcessing := false }

/-- C9: when the entries past the cursor total fewer words than the
configured minimum, `processTranscript` makes no provider call, emits no
notes, and leaves the whole service state (cursor included) unchanged. -/
theorem note_cycle_skip (aiConfigured : Bool) (ai : String → Option String)
    (freshId : ℕ → String) (now : ℕ) (s : Notes.NoteGenState)
    (h : (s.transcriptBuffer.drop s.lastProcessedIndex).foldl
        (fun count e => count + jsWordCount e.text) 0 < s.config.minTranscriptLength) :
    Notes.processTranscript aiConfigured ai freshId now s = (s, [], []) := by
  unfold Notes.processTranscript
  split_ifs with h1 h2
  · rfl
  · rfl
  · rfl

/-- Closed instance of `note_cycle_skip` on a two-word buffer against the
default 50-word minimum. -/
theorem note_cycle_skip_witness :
    Notes.processTranscript true (fun _ => none) (fun _ => "") 0 noteSkipState
      = (noteSkipState, [], []) :=
  note_cycle_skip true (fun _ => none) (fun _ => "") 0 noteSkipState (by decide)
